import Mathlib

/-!
Verification of the Sponge extraction pipeline (backend/app/llm) against its
specification.  This file shallowly embeds the pipeline's pure logic:

* `NuggetDimensionScores.total_score` (schemas.py), including a faithful model
  of the IEEE-754 double-precision arithmetic the Python code performs (the
  weighted sum is computed in binary floating point, which matters for the
  final truncation);
* the lexical dedup engine `_deduplicate` (pipeline.py);
* the contradiction detector `_detect_contradictions` (pipeline.py);
* the persistence pass `_persist_graph` (pipeline.py), including the
  co-extraction `related_to` all-pairs loop and the `ConfidenceLevel` mapping;
* the orchestrator `run` (pipeline.py) as a function of abstract stage
  outcomes (each model-backed stage either returns a value or raises
  `ValidationRetryExhaustedError`);
* the retry/correction loop `call_llm_with_schema` and the layered JSON
  extractor `_extract_json` (client.py), with a fuel-based model of
  `json.loads` over a JSON value type.

Machine integers are modelled as `Nat`/`Int`.  The nonnegative binary64
values arising in the score computation are modelled exactly as dyadic
rationals `num / 2 ^ shift` with each operation correctly rounded to 53
significand bits (round to nearest, ties to even), which is exactly what
CPython's float arithmetic does on this value range.  `int(...)` truncation
is modelled by `Dyad.pyInt`; fallible code returns `Option`/`Except`.
-/

namespace Sponge

/-! ## IEEE-754 binary64 model (nonnegative dyadic rationals)

Every float produced while computing `total_score` is nonnegative and far
inside the normal range, so a binary64 value is exactly a dyadic rational
with a 53-bit significand.  `Dyad.mk m s` denotes the real number
`m / 2 ^ s` (`s` may be negative, denoting `m * 2 ^ (-s)`). -/

/-- A nonnegative dyadic rational `num / 2 ^ shift`. -/
structure Dyad where
  num : ℕ
  shift : ℤ
deriving DecidableEq, Repr

/-- Number of bits of `n` (`0` for `0`), with explicit fuel. -/
def bitlenFuel : ℕ → ℕ → ℕ
  | 0, _ => 0
  | Nat.succ fuel, n => if n = 0 then 0 else bitlenFuel fuel (n / 2) + 1

/-- Number of bits of `n`: the unique `b` with `2 ^ (b - 1) ≤ n < 2 ^ b`
for `n > 0` (valid for `n < 2 ^ 4096`, far above anything arising here). -/
def bitlen (n : ℕ) : ℕ := bitlenFuel 4096 n

/-- Round a dyadic rational to 53 significand bits, to nearest with ties to
even: the rounding step IEEE-754 binary64 arithmetic applies to every exact
product or sum. -/
def fpRound (x : Dyad) : Dyad :=
  if x.num = 0 then ⟨0, 0⟩
  else
    let b := bitlen x.num
    if b ≤ 53 then x
    else
      let t := b - 53
      let p := 2 ^ t
      let n0 := x.num / p
      let r := x.num % p
      let n :=
        if 2 * r < p then n0
        else if p < 2 * r then n0 + 1
        else if n0 % 2 = 0 then n0 else n0 + 1
      ⟨n, x.shift - t⟩

/-- Binary64 multiplication (exact product, then correct rounding). -/
def fpMul (x y : Dyad) : Dyad := fpRound ⟨x.num * y.num, x.shift + y.shift⟩

/-- Binary64 addition (exact sum, then correct rounding). -/
def fpAdd (x y : Dyad) : Dyad :=
  if x.shift ≤ y.shift then
    fpRound ⟨x.num * 2 ^ (y.shift - x.shift).toNat + y.num, y.shift⟩
  else
    fpRound ⟨x.num + y.num * 2 ^ (x.shift - y.shift).toNat, x.shift⟩

/-- The binary64 value denoted by the Python literal `0.20`
(the nearest double to `1/5`). -/
def dbl020 : Dyad := ⟨3602879701896397, 54⟩

/-- The binary64 value denoted by the Python literal `0.15`
(the nearest double to `3/20`). -/
def dbl015 : Dyad := ⟨5404319552844595, 55⟩

/-- The exact binary64 value of the Python int `v` (exact for `v < 2 ^ 53`). -/
def Dyad.ofNat (v : ℕ) : Dyad := ⟨v, 0⟩

/-- Python `int(x)` on a nonnegative float: truncation toward zero. -/
def Dyad.pyInt (x : Dyad) : ℕ :=
  if x.shift ≤ 0 then x.num * 2 ^ (-x.shift).toNat else x.num / 2 ^ x.shift.toNat

/-- The rational value denoted by a `Dyad` (used only in specifications). -/
def Dyad.toRat (x : Dyad) : ℚ :=
  if 0 ≤ x.shift then mkRat x.num (2 ^ x.shift.toNat) else mkRat (x.num * 2 ^ (-x.shift).toNat) 1

/-! ## LLM output schemas (app/llm/schemas.py) -/

/-- `NuggetType` (schemas.py): type of an extracted nugget. -/
inductive NuggetType where
  | idea
  | story
  | framework
deriving DecidableEq, Repr

/-- Candidate extraction confidence: `Literal["high", "medium", "low"]`
(schemas.py, `CandidateNugget.confidence`). -/
inductive CandConfidence where
  | high
  | medium
  | low
deriving DecidableEq, Repr

/-- The Python string value of a candidate confidence literal. -/
def CandConfidence.str : CandConfidence → String
  | .high => "high"
  | .medium => "medium"
  | .low => "low"

/-- `CandidateNugget` (schemas.py): a candidate nugget extracted from user
input (length validators are boundary checks, not needed by the claims). -/
structure CandidateNugget where
  nuggetType : NuggetType
  title : String
  summary : String
  keyPhrases : List String
  confidence : CandConfidence
deriving DecidableEq, Repr

/-- `NuggetDimensionScores` (schemas.py): six dimension scores, each an
integer in `0..100` (the bound is enforced by pydantic; theorems carry it as
a hypothesis where needed). -/
structure NuggetDimensionScores where
  specificity : ℕ
  novelty : ℕ
  authority : ℕ
  actionability : ℕ
  story_energy : ℕ
  audience_resonance : ℕ
deriving DecidableEq, Repr

/-- `NuggetDimensionScores.total_score` (schemas.py): Python computes
`int(self.specificity * 0.20 + self.novelty * 0.15 + self.authority * 0.20 +
self.actionability * 0.15 + self.story_energy * 0.15 +
self.audience_resonance * 0.15)` in binary64 floating point, left to right,
then truncates with `int(...)`. -/
def totalScore (d : NuggetDimensionScores) : ℕ :=
  (fpAdd
    (fpAdd
      (fpAdd
        (fpAdd
          (fpAdd (fpMul (Dyad.ofNat d.specificity) dbl020)
            (fpMul (Dyad.ofNat d.novelty) dbl015))
          (fpMul (Dyad.ofNat d.authority) dbl020))
        (fpMul (Dyad.ofNat d.actionability) dbl015))
      (fpMul (Dyad.ofNat d.story_energy) dbl015))
    (fpMul (Dyad.ofNat d.audience_resonance) dbl015)).pyInt

/-- Modelled from the spec's words (§8): `total_score` as the floor of the
exact weighted sum `0.20·specificity + 0.15·novelty + 0.20·authority +
0.15·actionability + 0.15·story_energy + 0.15·audience_resonance`, to be
compared with the code's `totalScore`. -/
def specTotalScore (d : NuggetDimensionScores) : ℤ :=
  ⌊(0.20 : ℚ) * d.specificity + (0.15 : ℚ) * d.novelty + (0.20 : ℚ) * d.authority
    + (0.15 : ℚ) * d.actionability + (0.15 : ℚ) * d.story_energy
    + (0.15 : ℚ) * d.audience_resonance⌋

/-- `MissingField` (schemas.py). -/
inductive MissingField where
  | example
  | evidence
  | steps
  | counterpoint
  | definition
  | audience
  | outcome
deriving DecidableEq, Repr

/-- `ScoredNugget` (schemas.py): a nugget with scoring information. -/
structure ScoredNugget where
  nuggetIndex : ℕ
  dimensionScores : NuggetDimensionScores
  missingFields : List MissingField
deriving DecidableEq, Repr

/-- `DedupOutcome` (schemas.py). -/
inductive DedupOutcome where
  | create
  | merge
  | link_expands
  | link_related
deriving DecidableEq, Repr

/-- `DedupDecision` (schemas.py): deduplication decision for a candidate
nugget.  Node ids are modelled as naturals (Python uses UUID strings);
`similarityScore` holds the exact rational value of the Python float, which
for Jaccard ratios of realistic word-set sizes is lossless. -/
structure DedupDecision where
  nuggetIndex : ℕ
  outcome : DedupOutcome
  existingNodeId : Option ℕ
  mergeRationale : Option String
  similarityScore : ℚ
deriving DecidableEq, Repr

/-- `GapType` (schemas.py). -/
inductive GapType where
  | example
  | evidence
  | steps
  | counterpoint
  | definition
  | audience
  | outcome
deriving DecidableEq, Repr

/-- `NextQuestionCandidate` (schemas.py). -/
structure NextQuestionCandidate where
  question : String
  targetNuggetIndex : ℕ
  gapType : GapType
  impactScore : ℕ
  leverageScore : ℕ
  momentumScore : ℕ
  connectivityScore : ℕ
  gapCriticalityScore : ℕ
deriving DecidableEq, Repr

end Sponge

namespace Sponge

/-! ## Persistent table rows (app/models/tables.py)

Rows are modelled with the fields the pipeline writes; `session_id` (constant
within one run), timestamps and DB-generated uuids are omitted.  Node ids are
naturals: the pipeline only ever compares them for equality, and freshly
generated uuids are distinct from all existing ones, which the model captures
by allocating fresh ids from a counter. -/

/-- `NodeType` (tables.py). -/
inductive NodeType where
  | idea
  | story
  | framework
  | definition
  | evidence
  | theme
deriving DecidableEq, Repr

/-- `EdgeType` (tables.py). -/
inductive EdgeType where
  | supports
  | example_of
  | expands_on
  | related_to
  | contradicts
deriving DecidableEq, Repr

/-- `SourceType` (tables.py). -/
inductive SourceType where
  | chat
  | upload
deriving DecidableEq, Repr

/-- `ConfidenceLevel` (tables.py): values `"low"`, `"med"`, `"high"`. -/
inductive ConfidenceLevel where
  | low
  | med
  | high
deriving DecidableEq, Repr

/-- Python `ConfidenceLevel(value)`: enum lookup by value, raising
`ValueError` (here `none`) when no member has that value.  Note the member
values are `"low"`, `"med"`, `"high"` — there is no `"medium"` member. -/
def ConfidenceLevel.ofString : String → Option ConfidenceLevel
  | "low" => some .low
  | "med" => some .med
  | "high" => some .high
  | _ => none

/-- `NodeType(nugget_type.value)` (pipeline.py): every nugget type value is
also a node type value, so this lookup is total. -/
def NodeType.ofNuggetType : NuggetType → NodeType
  | .idea => .idea
  | .story => .story
  | .framework => .framework

/-- A `Node` row as created by the pipeline. -/
structure PNode where
  id : ℕ
  nodeType : NodeType
  title : String
  summary : String
deriving DecidableEq, Repr

/-- An `Edge` row as created by the pipeline. -/
structure PEdge where
  sourceId : ℕ
  targetId : ℕ
  edgeType : EdgeType
deriving DecidableEq, Repr

/-- A `Nugget` row as created by the pipeline. -/
structure PNugget where
  nodeId : ℕ
  nuggetType : NuggetType
  title : String
  shortSummary : String
  score : ℤ
  dimensionScores : Option NuggetDimensionScores
  missingFields : List MissingField
deriving DecidableEq, Repr

/-- A `Provenance` row as created by the pipeline. -/
structure PProvenance where
  nodeId : ℕ
  sourceType : SourceType
  sourceId : ℕ
  confidence : ConfidenceLevel
deriving DecidableEq, Repr

/-- `ExistingNodeContext` (pipeline.py): context about an existing node. -/
structure ExistingNodeContext where
  nodeId : ℕ
  title : String
  summary : String
  userEdited : Bool
deriving DecidableEq, Repr

/-! ## Word sets and Jaccard similarity (pipeline.py)

Both `_deduplicate` and `_detect_contradictions` tokenize
`title.lower().split()` into a Python `set` and compare
`len(a & b) / len(a | b)` (a float) against threshold literals.  Word sets
are modelled as `Finset String`; the similarity is modelled as the exact
rational `mkRat |a ∩ b| |a ∪ b|`.  For word sets of any realistic size
(union below `10 ^ 14`) the binary64 quotient compares against the binary64
literals `0.85`, `0.5`, `0.3` exactly as the rational compares against
`17/20`, `1/2`, `3/10`: rounding to nearest is monotone, and no fraction with
such a denominator other than the threshold itself lands within one ulp of a
threshold. -/

/-- Whitespace splitter: Python `str.split()` — split on whitespace runs,
dropping empty pieces.  `acc` holds the current word reversed. -/
def splitWsGo : List Char → List Char → List String
  | [], acc => if acc.isEmpty then [] else [String.mk acc.reverse]
  | c :: cs, acc =>
    if c.isWhitespace then
      if acc.isEmpty then splitWsGo cs [] else String.mk acc.reverse :: splitWsGo cs []
    else splitWsGo cs (c :: acc)

/-- Python `s.lower().split()` (ASCII lowering suffices for the model). -/
def pyLowerWords (s : String) : List String :=
  splitWsGo (s.data.map Char.toLower) []

/-- `set(title.lower().split())`. -/
def wordSet (s : String) : Finset String := (pyLowerWords s).toFinset

/-- Jaccard similarity of two word sets as an exact rational
(`mkRat _ 0 = 0`, matching the code's `if union > 0 else 0.0` convention). -/
def jaccard (a b : Finset String) : ℚ := mkRat (a ∩ b).card (a ∪ b).card

/-! ## Dedup engine: `ExtractionPipeline._deduplicate` (pipeline.py) -/

/-- `SIMILARITY_THRESHOLD = 0.85` (pipeline.py), as the rational the float
comparison is equivalent to. -/
def similarityThreshold : ℚ := mkRat 17 20

/-- The inner best-match loop of `_deduplicate`: scan existing nodes,
skipping empty word sets, keeping the strictly best similarity seen. -/
def bestMatchLoop (nuggetWords : Finset String) :
    List ExistingNodeContext → ℚ → Option ExistingNodeContext →
      ℚ × Option ExistingNodeContext
  | [], best, bm => (best, bm)
  | node :: rest, best, bm =>
    let nodeWords := wordSet node.title
    if nuggetWords = ∅ ∨ nodeWords = ∅ then bestMatchLoop nuggetWords rest best bm
    else
      let inter := (nuggetWords ∩ nodeWords).card
      let union := (nuggetWords ∪ nodeWords).card
      let similarity := if 0 < union then mkRat inter union else 0
      if best < similarity then bestMatchLoop nuggetWords rest similarity (some node)
      else bestMatchLoop nuggetWords rest best bm

/-- Threshold cascade of `_deduplicate`, evaluated high to low. -/
def dedupOutcomeOf (best : ℚ) : DedupOutcome :=
  if similarityThreshold ≤ best then .merge
  else if mkRat 1 2 ≤ best then .link_expands
  else if mkRat 3 10 ≤ best then .link_related
  else .create

/-- `ExtractionPipeline._deduplicate` (pipeline.py).  The `scores` argument
is accepted and unused, exactly as in the source. -/
def deduplicate (nuggets : List CandidateNugget) (scores : List ScoredNugget)
    (existing : List ExistingNodeContext) : List DedupDecision :=
  if existing.isEmpty then
    (List.range nuggets.length).map (fun i => ⟨i, .create, none, none, 0⟩)
  else
    nuggets.enum.map (fun p =>
      let best := bestMatchLoop (wordSet p.2.title) existing 0 none
      let outcome := dedupOutcomeOf best.1
      { nuggetIndex := p.1
        outcome := outcome
        existingNodeId :=
          match best.2 with
          | some m => if outcome ≠ .create then some m.nodeId else none
          | none => none
        mergeRationale :=
          match best.2 with
          | some m => if outcome ≠ .create then some ("Similar to: " ++ m.title) else none
          | none => none
        similarityScore := best.1 })

/-- Modelled from the spec's words (§4.3): the best Jaccard similarity of a
candidate title against the existing nodes' titles, to be compared with the
loop the code runs. -/
def bestSimilarity (title : String) (existing : List ExistingNodeContext) : ℚ :=
  existing.foldl (fun b node => max b (jaccard (wordSet title) (wordSet node.title))) 0

/-! ## Contradiction detector: `_detect_contradictions` (pipeline.py) -/

/-- `CONTRADICTION_SIMILARITY_FLOOR = 0.3` (pipeline.py). -/
def contradictionSimilarityFloor : ℚ := mkRat 3 10

/-- The fixed negation-signal vocabulary of `_detect_contradictions`. -/
def negationSignals : Finset String :=
  {"not", "never", "don\x27t", "dont", "shouldn\x27t", "shouldnt", "avoid",
   "stop", "wrong", "myth", "overrated", "instead", "contrary", "opposite",
   "actually", "however", "but"}

/-- `ExtractionPipeline._detect_contradictions` (pipeline.py), returning the
list of `contradicts` edges created (the Python function adds them to the
session and returns their count). -/
def detectContradictions (newNodes : List PNode)
    (existing : List ExistingNodeContext) : List PEdge :=
  if newNodes.isEmpty ∨ existing.isEmpty then []
  else
    newNodes.bind (fun node =>
      let nodeWords := wordSet node.title
      if nodeWords ∩ negationSignals = ∅ then []
      else
        let contentWords := nodeWords \ negationSignals
        existing.filterMap (fun ex =>
          let existingWords := wordSet ex.title
          if contentWords = ∅ ∨ existingWords = ∅ then none
          else
            let overlap := (contentWords ∩ existingWords).card
            let union := (contentWords ∪ existingWords).card
            let similarity := if 0 < union then mkRat overlap union else 0
            if contradictionSimilarityFloor ≤ similarity then
              some ⟨node.id, ex.nodeId, .contradicts⟩
            else none))

/-- Modelled from the spec's words (§4.4): a `contradicts` edge from each
new node whose title intersects the negation vocabulary to every existing
node whose title word set has Jaccard similarity at least `3/10` with the
new node's negation-stripped word set. -/
def specContradictionEdges (newNodes : List PNode)
    (existing : List ExistingNodeContext) : List PEdge :=
  newNodes.bind (fun node =>
    (existing.filter (fun ex =>
        decide ((wordSet node.title ∩ negationSignals).Nonempty ∧
          contradictionSimilarityFloor ≤
            jaccard (wordSet node.title \ negationSignals) (wordSet ex.title)))).map
      (fun ex => ⟨node.id, ex.nodeId, .contradicts⟩))

end Sponge

namespace Sponge

/-! ## Persistence: `ExtractionPipeline._persist_graph` (pipeline.py) -/

/-- `MIN_SCORE_THRESHOLD = 30` (pipeline.py). -/
def minScoreThreshold : ℕ := 30

/-- `ANTI_GENERIC_NOVELTY_THRESHOLD = 20` (pipeline.py). -/
def antiGenericNoveltyThreshold : ℕ := 20

/-- `next((s for s in scores if s.nugget_index == i), None)` (pipeline.py). -/
def findScore (scores : List ScoredNugget) (i : ℕ) : Option ScoredNugget :=
  scores.find? (fun s => s.nuggetIndex == i)

/-- `ExtractionPipeline._compute_persisted_score` (pipeline.py):
`50` when no score data; `max(0, raw // 2)` (Python floor division) when
novelty is below the anti-generic threshold; the raw total otherwise. -/
def computePersistedScore (scoreData : Option ScoredNugget) : ℤ :=
  match scoreData with
  | none => 50
  | some s =>
    if s.dimensionScores.novelty < antiGenericNoveltyThreshold then
      max 0 (Int.fdiv (totalScore s.dimensionScores) 2)
    else totalScore s.dimensionScores

/-- Accumulated output of the per-candidate loop of `_persist_graph`.
`idMap` models `node_id_map` (a dict keyed by the loop index, hence insertion
order = index order); lists are in creation order. -/
structure PersistAcc where
  nextId : ℕ
  idMap : List (ℕ × ℕ)
  nodes : List PNode
  nuggetRecs : List PNugget
  provRecs : List PProvenance
  linkEdges : List PEdge
deriving DecidableEq, Repr

/-- The `Nugget` row built in the create and link branches of
`_persist_graph` (`short_summary` is `summary[:200]`). -/
def mkNuggetRec (nodeId : ℕ) (c : CandidateNugget) (sd : Option ScoredNugget) : PNugget :=
  { nodeId := nodeId
    nuggetType := c.nuggetType
    title := c.title
    shortSummary := c.summary.take 200
    score := computePersistedScore sd
    dimensionScores := sd.map (fun s => s.dimensionScores)
    missingFields := match sd with | some s => s.missingFields | none => [] }

/-- Per-candidate contribution of one iteration of the `_persist_graph`
loop: the fresh-id counter after the iteration and the rows it adds. -/
structure StepOut where
  nextNid : ℕ
  idMapE : List (ℕ × ℕ)
  nodesE : List PNode
  nuggetE : List PNugget
  provE : List PProvenance
  edgesE : List PEdge
deriving DecidableEq, Repr

/-- One iteration of the `_persist_graph` loop for candidate `c` at loop
index `i` with decision `d` (pipeline.py, lines 658-774):
create inserts Node + Nugget + Provenance; merge (when an existing node id
is present) records the existing id in `node_id_map` and inserts a
Provenance row pointing at it; link inserts Node + Nugget + Provenance plus
one `expands_on`/`related_to` edge to the existing node.
`ConfidenceLevel(nugget.confidence)` can raise `ValueError`. -/
def persistStep (turnId : ℕ) (scores : List ScoredNugget) (i : ℕ)
    (c : CandidateNugget) (d : DedupDecision) (nid : ℕ) : Except String StepOut :=
  let scoreData := findScore scores i
  match d.outcome with
  | .create =>
    match ConfidenceLevel.ofString c.confidence.str with
    | none => .error "ValueError: invalid ConfidenceLevel"
    | some lvl =>
      .ok ⟨nid + 1, [(i, nid)],
        [⟨nid, NodeType.ofNuggetType c.nuggetType, c.title, c.summary⟩],
        [mkNuggetRec nid c scoreData], [⟨nid, .chat, turnId, lvl⟩], []⟩
  | .merge =>
    match d.existingNodeId with
    | none => .ok ⟨nid, [], [], [], [], []⟩
    | some eid =>
      match ConfidenceLevel.ofString c.confidence.str with
      | none => .error "ValueError: invalid ConfidenceLevel"
      | some lvl =>
        .ok ⟨nid, [(i, eid)], [], [], [⟨eid, .chat, turnId, lvl⟩], []⟩
  | .link_expands | .link_related =>
    match ConfidenceLevel.ofString c.confidence.str with
    | none => .error "ValueError: invalid ConfidenceLevel"
    | some lvl =>
      .ok ⟨nid + 1, [(i, nid)],
        [⟨nid, NodeType.ofNuggetType c.nuggetType, c.title, c.summary⟩],
        [mkNuggetRec nid c scoreData], [⟨nid, .chat, turnId, lvl⟩],
        match d.existingNodeId with
        | some eid =>
          [(⟨nid, eid,
              if d.outcome = .link_expands then .expands_on else .related_to⟩ : PEdge)]
        | none => []⟩

/-- The per-candidate loop of `_persist_graph`, over
`enumerate(zip(nuggets, dedup_decisions))`.  Fresh node uuids are modelled by
the counter `nid`; rows accumulate in creation order, and an iteration's
`ValueError` aborts the whole pass. -/
def persistLoop (turnId : ℕ) (scores : List ScoredNugget) :
    List (ℕ × CandidateNugget × DedupDecision) → ℕ → Except String PersistAcc
  | [], nid => .ok ⟨nid, [], [], [], [], []⟩
  | (i, c, d) :: rest, nid =>
    match persistStep turnId scores i c d nid with
    | .error e => .error e
    | .ok st =>
      match persistLoop turnId scores rest st.nextNid with
      | .error e => .error e
      | .ok acc =>
        .ok ⟨acc.nextId, st.idMapE ++ acc.idMap, st.nodesE ++ acc.nodes,
          st.nuggetE ++ acc.nuggetRecs, st.provE ++ acc.provRecs,
          st.edgesE ++ acc.linkEdges⟩

/-- The all-pairs loop over `created_node_ids`
(`for i, id1 in enumerate(...): for id2 in created_node_ids[i+1:]`). -/
def allPairs : List ℕ → List (ℕ × ℕ)
  | [] => []
  | x :: xs => xs.map (fun y => (x, y)) ++ allPairs xs

/-- The co-extraction `related_to` edges of `_persist_graph`: one edge per
ordered pair `(id1, id2)` with `id1` before `id2` in `node_id_map` values and
`id1 != id2`. -/
def coExtractionEdges (vals : List ℕ) : List PEdge :=
  ((allPairs vals).filter (fun p => decide (p.1 ≠ p.2))).map
    (fun p => ⟨p.1, p.2, .related_to⟩)

/-- Number of `related_to` edges between `x` and `y` (either direction). -/
def relatedPairCount (es : List PEdge) (x y : ℕ) : ℕ :=
  (es.filter (fun ed => decide (ed.edgeType = EdgeType.related_to ∧
    ((ed.sourceId = x ∧ ed.targetId = y) ∨ (ed.sourceId = y ∧ ed.targetId = x))))).length

/-- Full output of `_persist_graph`. -/
structure GraphOut where
  nextId : ℕ
  idMapVals : List ℕ
  nodes : List PNode
  nuggetRecs : List PNugget
  provRecs : List PProvenance
  edges : List PEdge
deriving DecidableEq, Repr

/-- `enumerate(zip(nuggets, dedup_decisions))`. -/
def enumZip (cands : List CandidateNugget) (ds : List DedupDecision) :
    List (ℕ × CandidateNugget × DedupDecision) :=
  (cands.zip ds).enum

/-- `ExtractionPipeline._persist_graph` (pipeline.py): the per-candidate
loop followed by the co-extraction all-pairs `related_to` pass. -/
def persistGraph (cands : List CandidateNugget) (scores : List ScoredNugget)
    (ds : List DedupDecision) (turnId nid0 : ℕ) : Except String GraphOut :=
  match persistLoop turnId scores (enumZip cands ds) nid0 with
  | .error e => .error e
  | .ok acc =>
    let vals := acc.idMap.map (fun p => p.2)
    .ok ⟨acc.nextId, vals, acc.nodes, acc.nuggetRecs, acc.provRecs,
      acc.linkEdges ++ coExtractionEdges vals⟩

/-! ## Orchestrator: `ExtractionPipeline.run` (pipeline.py)

Each model-backed stage (extract, score, question generation) either returns
a value or raises `ValidationRetryExhaustedError`; the dedup stage is wrapped
in the same `try`/`except` in the source, so its failure is modelled by a
boolean.  `run` is then a pure function of these abstract stage outcomes. -/

/-- Outcome of one model-backed stage: a value, or
`ValidationRetryExhaustedError`. -/
inductive StageResult (α : Type) where
  | ok (val : α)
  | failed
deriving DecidableEq

/-- Inputs of one pipeline run: the session's existing nodes, the abstract
stage outcomes, the chat-turn id and the fresh-node id counter. -/
structure RunInputs where
  existingNodes : List ExistingNodeContext
  extractRes : StageResult (List CandidateNugget)
  scoreRes : StageResult (List ScoredNugget)
  dedupFails : Bool
  questionRes : StageResult (List NextQuestionCandidate × String)
  turnId : ℕ
  nextId0 : ℕ
deriving DecidableEq

/-- `PipelineResult`, restricted to the fields the claims are about. -/
structure RunResult where
  extractedNuggets : List CandidateNugget
  scoredNuggets : List ScoredNugget
  dedupDecisions : List DedupDecision
  createdNodes : List PNode
  createdEdges : List PEdge
  createdNuggets : List PNugget
  provRecords : List PProvenance
  contradictionEdges : List PEdge
  questions : List NextQuestionCandidate
  whyPrimary : String
  extractionFailed : Bool
  failureReason : String
deriving DecidableEq

/-- The extraction-failure message (pipeline.py, lines 155 and 164). -/
def failureMsgNoIdeas : String :=
  "I couldn\x27t identify any distinct ideas from what you shared."

/-- The below-threshold failure message (pipeline.py, line 207). -/
def failureMsgTooVague : String :=
  "The ideas I captured seem too vague or general to be useful."

/-- A terminal early return of `run`: no graph mutation of any kind. -/
def terminalResult (extracted : List CandidateNugget) (scored : List ScoredNugget)
    (reason : String) : RunResult :=
  ⟨extracted, scored, [], [], [], [], [], [], [], "", true, reason⟩

/-- `ExtractionPipeline._default_scores`: 50 on every dimension, one
`example` missing-field tag. -/
def defaultScores (nuggets : List CandidateNugget) : List ScoredNugget :=
  (List.range nuggets.length).map (fun i => ⟨i, ⟨50, 50, 50, 50, 50, 50⟩, [.example]⟩)

/-- The all-create default used when the dedup stage fails. -/
def defaultCreateDecisions (nuggets : List CandidateNugget) : List DedupDecision :=
  (List.range nuggets.length).map (fun i => ⟨i, .create, none, none, 0⟩)

/-- `ExtractionPipeline._default_questions`: one fallback question
referencing the first candidate's title. -/
def defaultQuestions (nuggets : List CandidateNugget) : List NextQuestionCandidate :=
  match nuggets with
  | [] => []
  | n :: _ =>
    [⟨"Can you give me a specific example of \x27" ++ n.title ++ "\x27?",
      0, .example, 70, 65, 75, 55, 70⟩]

/-- The fixed `why_primary` used when question generation fails. -/
def defaultWhyPrimary : String := "Let\x27s explore this further with a concrete example."

/-- The low-confidence filter of `run`: keep non-low candidates when any
exist, otherwise keep everything. -/
def filterLowConfidence (nuggets : List CandidateNugget) : List CandidateNugget :=
  let highConfidence := nuggets.filter (fun n => decide (n.confidence ≠ .low))
  if highConfidence.isEmpty then nuggets else highConfidence

/-- The scored list `run` works with: the score stage's output, or the
neutral defaults when scoring failed. -/
def scoredOf (scoreRes : StageResult (List ScoredNugget))
    (extracted : List CandidateNugget) : List ScoredNugget :=
  match scoreRes with
  | .ok s => s
  | .failed => defaultScores extracted

/-- The threshold filter of `run`: candidates whose (raw) `total_score`
reaches `MIN_SCORE_THRESHOLD`. -/
def validNuggets (scored : List ScoredNugget) : List ScoredNugget :=
  scored.filter (fun s => decide (minScoreThreshold ≤ totalScore s.dimensionScores))

/-- The dedup decisions `run` works with: the local lexical engine, or the
all-create default when the stage failed. -/
def decisionsOf (dedupFails : Bool) (extracted : List CandidateNugget)
    (scored : List ScoredNugget) (existing : List ExistingNodeContext) :
    List DedupDecision :=
  if dedupFails then defaultCreateDecisions extracted
  else deduplicate extracted scored existing

/-- The question list and `why_primary` of `run`, with the documented
fallback when question generation fails. -/
def questionsOf (questionRes : StageResult (List NextQuestionCandidate × String))
    (extracted : List CandidateNugget) : List NextQuestionCandidate × String :=
  match questionRes with
  | .ok qw => qw
  | .failed => (defaultQuestions extracted, defaultWhyPrimary)

/-- `ExtractionPipeline.run` (pipeline.py) as a function of the abstract
stage outcomes.  `Except.error` models the uncaught `ValueError` the
persistence pass can raise. -/
def runPipeline (inp : RunInputs) : Except String RunResult :=
  match inp.extractRes with
  | .failed => .ok (terminalResult [] [] failureMsgNoIdeas)
  | .ok nuggets =>
    if nuggets.isEmpty then .ok (terminalResult nuggets [] failureMsgNoIdeas)
    else
      let extracted := filterLowConfidence nuggets
      let scored := scoredOf inp.scoreRes extracted
      if (validNuggets scored).isEmpty then
        .ok (terminalResult extracted scored failureMsgTooVague)
      else
        let decisions := decisionsOf inp.dedupFails extracted scored inp.existingNodes
        match persistGraph extracted scored decisions inp.turnId inp.nextId0 with
        | .error e => .error e
        | .ok g =>
          let qw := questionsOf inp.questionRes extracted
          .ok ⟨extracted, scored, decisions, g.nodes, g.edges, g.nuggetRecs, g.provRecs,
            detectContradictions g.nodes inp.existingNodes, qw.1, qw.2, false, ""⟩

end Sponge

namespace Sponge

/-! ## Model invocation client: `call_llm_with_schema` (app/llm/client.py)

The transport (`call_llm`) is an abstract `String → String`; parsing plus
pydantic validation at a given schema is an abstract
`String → Except String T` (the caught exception classes are `ValueError`
and `ValidationError`, whose message is the `String`). -/

/-- Python `s[:n]`: the first `n` characters (code points). -/
def pyTake (s : String) (n : ℕ) : String := ⟨s.data.take n⟩

/-- `ValidationRetryExhaustedError` (client.py), carrying `last_error`. -/
inductive ClientError where
  | retryExhausted (lastError : String)
deriving DecidableEq, Repr

/-- Result of one `call_llm_with_schema` call plus the list of prompts
actually sent to the model, in order. -/
structure CallOutcome (T : Type) where
  result : Except ClientError T
  llmPrompts : List String

/-- `get_prompt("correction").format(...)` (prompts.py `CORRECTION_PROMPT`):
the correction prompt embeds the error message, the schema description, and
the (already truncated) previous response. -/
def correctionPrompt (errorMessage schemaDescription previousResponse : String) : String :=
  "Your previous response did not match the required JSON schema.\n\nError: "
    ++ errorMessage
    ++ "\n\nPlease correct your response and output valid JSON matching this schema:\n"
    ++ schemaDescription
    ++ "\n\nYour previous response:\n"
    ++ previousResponse
    ++ "\n\nCorrected response:\n"

/-- The default `max_retries` of `call_llm_with_schema`. -/
def defaultMaxRetries : ℕ := 1

/-- The `for attempt in range(max_retries + 1)` loop of
`call_llm_with_schema`: validate the current response; on failure, if
attempts remain, send a correction prompt built from the error, the schema
description and the first 1000 characters of the failed response.  When all
attempts are exhausted, raise `ValidationRetryExhaustedError` with the last
error. -/
def callLoop {T : Type} (validate : String → Except String T) (llm : String → String)
    (schemaDescription : String) :
    String → ℕ → List String → CallOutcome T
  | response, attemptsLeft, prompts =>
    match validate response with
    | .ok v => ⟨.ok v, prompts⟩
    | .error err =>
      match attemptsLeft with
      | 0 => ⟨.error (.retryExhausted err), prompts⟩
      | Nat.succ k =>
        let cp := correctionPrompt err schemaDescription (pyTake response 1000)
        callLoop validate llm schemaDescription (llm cp) k (prompts ++ [cp])

/-- `call_llm_with_schema` (client.py): format the named prompt (here: the
already formatted `prompt` string), call the model, then run the
validate/retry loop. -/
def callLLMWithSchema {T : Type} (validate : String → Except String T)
    (llm : String → String) (schemaDescription : String) (prompt : String)
    (maxRetries : ℕ) : CallOutcome T :=
  callLoop validate llm schemaDescription (llm prompt) maxRetries [prompt]

/-! ## JSON extraction: `_extract_json` (app/llm/client.py)

`json.loads` is modelled by a fuel-based recursive-descent parser over a
JSON value type: objects (last duplicate key wins, as for a Python dict),
arrays, strings (with the standard escapes; a lone `\uXXXX` surrogate is
mapped to U+FFFD), numbers (kept as decimal mantissa/exponent), booleans and
null; trailing non-whitespace input is rejected.  The model omits Python's
non-standard `NaN`/`Infinity` literals, which no pipeline payload uses. -/

/-- JSON values. -/
inductive JVal where
  | jnull
  | jbool (b : Bool)
  | jnum (mantissa : ℤ) (exp10 : ℤ)
  | jstr (s : String)
  | jarr (elems : List JVal)
  | jobj (fields : List (String × JVal))

/-- JSON insignificant whitespace. -/
def jsonWs (c : Char) : Bool :=
  c == ' ' || c == '\t' || c == '\n' || c == '\r'

/-- Drop leading JSON whitespace. -/
def skipWs : List Char → List Char
  | [] => []
  | c :: cs => if jsonWs c then skipWs cs else c :: cs

/-- Hexadecimal digit value. -/
def hexVal (c : Char) : Option ℕ :=
  if '0' ≤ c ∧ c ≤ '9' then some (c.toNat - 48)
  else if 'a' ≤ c ∧ c ≤ 'f' then some (c.toNat - 87)
  else if 'A' ≤ c ∧ c ≤ 'F' then some (c.toNat - 55)
  else none

/-- Python dict insertion: replace the value at an existing key (keeping its
position), else append. -/
def objInsert : List (String × JVal) → String → JVal → List (String × JVal)
  | [], k, v => [(k, v)]
  | (k0, v0) :: rest, k, v =>
    if k0 = k then (k0, v) :: rest else (k0, v0) :: objInsert rest k v

/-- Parse a JSON string body (after the opening quote); `acc` is reversed. -/
def parseJString : List Char → List Char → Option (String × List Char)
  | [], _ => none
  | '"' :: rest, acc => some (String.mk acc.reverse, rest)
  | '\\' :: rest, acc =>
    match rest with
    | [] => none
    | 'u' :: r =>
      match r with
      | h1 :: h2 :: h3 :: h4 :: r2 =>
        match hexVal h1, hexVal h2, hexVal h3, hexVal h4 with
        | some a, some b, some c, some d =>
          let code := ((a * 16 + b) * 16 + c) * 16 + d
          let ch := if code < 0xd800 ∨ 0xe000 ≤ code then Char.ofNat code else '�'
          parseJString r2 (ch :: acc)
        | _, _, _, _ => none
      | _ => none
    | e :: r =>
      if e = '"' then parseJString r ('"' :: acc)
      else if e = '\\' then parseJString r ('\\' :: acc)
      else if e = '/' then parseJString r ('/' :: acc)
      else if e = 'b' then parseJString r ('\x08' :: acc)
      else if e = 'f' then parseJString r ('\x0c' :: acc)
      else if e = 'n' then parseJString r ('\n' :: acc)
      else if e = 'r' then parseJString r ('\r' :: acc)
      else if e = 't' then parseJString r ('\t' :: acc)
      else none
  | c :: rest, acc =>
    if c.toNat < 32 then none else parseJString rest (c :: acc)

/-- Split leading decimal digits. -/
def takeDigits : List Char → List Char × List Char
  | [] => ([], [])
  | c :: cs =>
    if c.isDigit then
      let p := takeDigits cs
      (c :: p.1, p.2)
    else ([], c :: cs)

/-- Decimal digit list to natural. -/
def digitsToNat (ds : List Char) : ℕ :=
  ds.foldl (fun a c => a * 10 + (c.toNat - 48)) 0

/-- Parse the integer part of a JSON number (`0` or a nonzero-led run). -/
def parseIntPart : List Char → Option (List Char × List Char)
  | [] => none
  | '0' :: r => some (['0'], r)
  | c :: r =>
    if c.isDigit then
      let p := takeDigits r
      some (c :: p.1, p.2)
    else none

/-- Parse an optional fraction part, returning its digits. -/
def parseFracPart : List Char → Option (List Char × List Char)
  | '.' :: r =>
    let p := takeDigits r
    if p.1.isEmpty then none else some (p.1, p.2)
  | cs => some ([], cs)

/-- Parse an optional exponent part, returning the signed exponent. -/
def parseExpPart : List Char → Option (ℤ × List Char)
  | c :: r =>
    if c = 'e' ∨ c = 'E' then
      match r with
      | '+' :: r2 =>
        let p := takeDigits r2
        if p.1.isEmpty then none else some ((digitsToNat p.1 : ℤ), p.2)
      | '-' :: r2 =>
        let p := takeDigits r2
        if p.1.isEmpty then none else some (-(digitsToNat p.1 : ℤ), p.2)
      | _ =>
        let p := takeDigits r
        if p.1.isEmpty then none else some ((digitsToNat p.1 : ℤ), p.2)
    else some (0, c :: r)
  | [] => some (0, [])

/-- Parse a JSON number as decimal mantissa and power-of-ten exponent. -/
def parseNumber (cs : List Char) : Option (JVal × List Char) :=
  let sgn := match cs with
    | '-' :: r => (true, r)
    | _ => (false, cs)
  match parseIntPart sgn.2 with
  | none => none
  | some (intDs, cs2) =>
    match parseFracPart cs2 with
    | none => none
    | some (fracDs, cs3) =>
      match parseExpPart cs3 with
      | none => none
      | some (e, cs4) =>
        let m : ℤ := digitsToNat (intDs ++ fracDs)
        some (.jnum (if sgn.1 then -m else m) (e - fracDs.length), cs4)

/-- Parser mode: a plain value, or the tail of an array/object being
accumulated. -/
inductive PMode where
  | value
  | arrItems (acc : List JVal)
  | objItems (acc : List (String × JVal))

/-- Recursive-descent JSON parser (fuel-based; fuel bounds the recursion
depth and is chosen generously by `jsonLoadsL`). -/
def parseCore : ℕ → PMode → List Char → Option (JVal × List Char)
  | 0, _, _ => none
  | Nat.succ fuel, .value, cs =>
    match skipWs cs with
    | [] => none
    | c :: rest =>
      if c = '\x7b' then
        match skipWs rest with
        | '\x7d' :: r2 => some (.jobj [], r2)
        | _ => parseCore fuel (.objItems []) rest
      else if c = '[' then
        match skipWs rest with
        | ']' :: r2 => some (.jarr [], r2)
        | _ => parseCore fuel (.arrItems []) rest
      else if c = '"' then
        match parseJString rest [] with
        | some (s, r2) => some (.jstr s, r2)
        | none => none
      else if c = 't' then
        match rest with
        | 'r' :: 'u' :: 'e' :: r2 => some (.jbool true, r2)
        | _ => none
      else if c = 'f' then
        match rest with
        | 'a' :: 'l' :: 's' :: 'e' :: r2 => some (.jbool false, r2)
        | _ => none
      else if c = 'n' then
        match rest with
        | 'u' :: 'l' :: 'l' :: r2 => some (.jnull, r2)
        | _ => none
      else parseNumber (c :: rest)
  | Nat.succ fuel, .arrItems acc, cs =>
    match parseCore fuel .value cs with
    | none => none
    | some (v, r) =>
      match skipWs r with
      | ',' :: r2 => parseCore fuel (.arrItems (acc ++ [v])) r2
      | ']' :: r2 => some (.jarr (acc ++ [v]), r2)
      | _ => none
  | Nat.succ fuel, .objItems acc, cs =>
    match skipWs cs with
    | '"' :: rest =>
      match parseJString rest [] with
      | none => none
      | some (k, r) =>
        match skipWs r with
        | ':' :: r2 =>
          match parseCore fuel .value r2 with
          | none => none
          | some (v, r3) =>
            match skipWs r3 with
            | ',' :: r4 => parseCore fuel (.objItems (objInsert acc k v)) r4
            | '\x7d' :: r4 => some (.jobj (objInsert acc k v), r4)
            | _ => none
        | _ => none
    | _ => none

/-- `json.loads` on a character list: parse one value, then require only
whitespace to remain. -/
def jsonLoadsL (cs : List Char) : Option JVal :=
  match parseCore (3 * cs.length + 8) .value cs with
  | some (v, rest) => if (skipWs rest).isEmpty then some v else none
  | none => none

/-- `json.loads` on a string. -/
def jsonLoads (s : String) : Option JVal := jsonLoadsL s.data

/-- `startsWith` on character lists. -/
def listStartsWith : List Char → List Char → Bool
  | _, [] => true
  | [], _ :: _ => false
  | c :: cs, d :: ds => c = d && listStartsWith cs ds

/-- Scan for the first occurrence of `needle`. -/
def pyFindGo (needle : List Char) : List Char → ℕ → Option ℕ
  | [], idx => if needle.isEmpty then some idx else none
  | c :: t, idx =>
    if listStartsWith (c :: t) needle then some idx else pyFindGo needle t (idx + 1)

/-- Python `haystack.find(needle, start)`: first index `≥ start`, else `-1`. -/
def pyFind (hay needle : List Char) (start : ℕ) : ℤ :=
  match pyFindGo needle (hay.drop start) 0 with
  | some k => ((start + k : ℕ) : ℤ)
  | none => -1

/-- Helper for `pyRFindChar`. -/
def pyRFindCharGo (c : Char) : List Char → ℕ → ℤ → ℤ
  | [], _, best => best
  | d :: t, idx, best => pyRFindCharGo c t (idx + 1) (if d = c then (idx : ℤ) else best)

/-- Python `haystack.rfind(c)`: last index of `c`, else `-1`. -/
def pyRFindChar (hay : List Char) (c : Char) : ℤ := pyRFindCharGo c hay 0 (-1)

/-- Python slice `l[a:b]`. -/
def pySlice (l : List Char) (a b : ℕ) : List Char := (l.drop a).take (b - a)

/-- Python `str.strip()`: drop leading and trailing whitespace. -/
def pyStrip (l : List Char) : List Char :=
  ((l.dropWhile Char.isWhitespace).reverse.dropWhile Char.isWhitespace).reverse

/-- The characters of `"```json"`. -/
def tickJson : List Char := "```json".data

/-- The characters of `"```"`. -/
def tickTick : List Char := "```".data

/-- Strategy 2 of `_extract_json`: a ```` ```json ```` fenced block. -/
def fencedJsonBlock (rs : List Char) : Option JVal :=
  let f := pyFind rs tickJson 0
  if 0 ≤ f then
    let start := f.toNat + 7
    let e := pyFind rs tickTick start
    if (start : ℤ) < e then jsonLoadsL (pyStrip (pySlice rs start e.toNat)) else none
  else none

/-- Strategy 3 of `_extract_json`: any fenced block, skipping a language
identifier line when one is present. -/
def genericFencedBlock (rs : List Char) : Option JVal :=
  let f := pyFind rs tickTick 0
  if 0 ≤ f then
    let start0 := f.toNat + 3
    let nl := pyFind rs ['\n'] start0
    let start := if (start0 : ℤ) < nl then nl.toNat + 1 else start0
    let e := pyFind rs tickTick start
    if (start : ℤ) < e then jsonLoadsL (pyStrip (pySlice rs start e.toNat)) else none
  else none

/-- Strategy 4 of `_extract_json`: the span from the first `{` to the last
`}` (no strip). -/
def braceSpan (rs : List Char) : Option JVal :=
  let s := pyFind rs ['\x7b'] 0
  let e := pyRFindChar rs '\x7d' + 1
  if 0 ≤ s ∧ s < e then jsonLoadsL (pySlice rs s.toNat e.toNat) else none

/-- `_extract_json` (client.py): direct parse, then the three fallback
strategies in order; `none` models the final `ValueError`. -/
def extractJson (response : String) : Option JVal :=
  let rs := response.data
  match jsonLoadsL rs with
  | some v => some v
  | none =>
    match fencedJsonBlock rs with
    | some v => some v
    | none =>
      match genericFencedBlock rs with
      | some v => some v
      | none => braceSpan rs

end Sponge

namespace Sponge

/-! ## Helper lemmas for the client retry loop -/

/-- Unfolding: a validating response ends the loop at once. -/
theorem callLoop_ok {T : Type} (validate : String → Except String T)
    (llm : String → String) (sd response : String) (n : ℕ) (prompts : List String)
    (v : T) (h : validate response = .ok v) :
    callLoop validate llm sd response n prompts = ⟨.ok v, prompts⟩ := by
  rw [callLoop.eq_def]
  dsimp only
  rw [h]

/-- Unfolding: a failing response with no attempts left raises
`ValidationRetryExhaustedError` with the last error. -/
theorem callLoop_zero_error {T : Type} (validate : String → Except String T)
    (llm : String → String) (sd response : String) (prompts : List String)
    (e : String) (h : validate response = .error e) :
    callLoop validate llm sd response 0 prompts = ⟨.error (.retryExhausted e), prompts⟩ := by
  rw [callLoop.eq_def]
  dsimp only
  rw [h]

/-- Unfolding: a failing response with attempts left sends one correction
prompt built from the error, the schema description, and the first 1000
characters of the failed response. -/
theorem callLoop_succ_error {T : Type} (validate : String → Except String T)
    (llm : String → String) (sd response : String) (k : ℕ) (prompts : List String)
    (e : String) (h : validate response = .error e) :
    callLoop validate llm sd response (k + 1) prompts =
      callLoop validate llm sd (llm (correctionPrompt e sd (pyTake response 1000))) k
        (prompts ++ [correctionPrompt e sd (pyTake response 1000)]) := by
  rw [callLoop.eq_def]
  dsimp only
  rw [h]

/-! ## Claim C4: `total_score` truncation -/

/-- C4 counterexample: the claim says `total_score` equals the floor of the
exact weighted sum for every tuple of dimension scores, but for the tuple
0/0/0/0/2/18 the binary64 evaluation of the weighted sum is
`2.9999999999999996`, so the code truncates to 2 while the exact floor
is 3. -/
theorem c4_counterexample :
    ¬ ((totalScore ⟨0, 0, 0, 0, 2, 18⟩ : ℤ) = specTotalScore ⟨0, 0, 0, 0, 2, 18⟩) := by
  have h1 : totalScore ⟨0, 0, 0, 0, 2, 18⟩ = 2 := by decide
  have h2 : specTotalScore ⟨0, 0, 0, 0, 2, 18⟩ = 3 := by
    unfold specTotalScore
    norm_num
  rw [h1, h2]
  decide

/-- C4 (amended): `total_score` is the weighted sum
`0.20·specificity + 0.15·novelty + 0.20·authority + 0.15·actionability +
0.15·story_energy + 0.15·audience_resonance` evaluated in IEEE-754 binary64
arithmetic and truncated (not rounded) to an integer; on the cited tuple
80/70/90/60/50/75 this yields 72 and agrees with the exact floor, but it
does not equal the exact floor on every tuple: 0/0/0/0/2/18 yields 2
against an exact floor of 3. -/
theorem c4_totalScore_truncated :
    totalScore ⟨80, 70, 90, 60, 50, 75⟩ = 72 ∧
    specTotalScore ⟨80, 70, 90, 60, 50, 75⟩ = 72 ∧
    totalScore ⟨0, 0, 0, 0, 2, 18⟩ = 2 ∧
    specTotalScore ⟨0, 0, 0, 0, 2, 18⟩ = 3 := by
  refine ⟨by decide, ?_, by decide, ?_⟩
  · unfold specTotalScore
    norm_num
  · unfold specTotalScore
    norm_num

/-! ## Claim C2: provenance confidence mapping -/

/-- C2: the claim says the candidate-confidence-to-`ConfidenceLevel` mapping
is total and lossless so that persisting provenance never fails, but
`ConfidenceLevel` has values `low`/`med`/`high` while candidates carry
`"medium"`: `ConfidenceLevel("medium")` raises `ValueError`, so persisting
any medium-confidence candidate fails (and `"medium"` is the declared
default confidence). -/
theorem c2_confidence_medium_raises :
    ConfidenceLevel.ofString (CandConfidence.str .medium) = none ∧
    ConfidenceLevel.ofString (CandConfidence.str .high) = some .high ∧
    ConfidenceLevel.ofString (CandConfidence.str .low) = some .low ∧
    persistGraph
      [⟨.idea, "Specific insight about hiring", "A summary long enough for the schema.",
        [], .medium⟩]
      [] [⟨0, .create, none, none, 0⟩] 7 100 =
      .error "ValueError: invalid ConfidenceLevel" := by
  refine ⟨rfl, rfl, rfl, rfl⟩

/-! ## Claim C9: layered JSON extraction -/

/-- C9: `_extract_json` applies the four strategies in order — direct
parse, a ```` ```json ```` fenced block, any fenced block, the span from the
first `{` to the last `}` — returning the first success; it recovers the
payload in each of the four shapes and fails (`ValueError`) on input with no
JSON substructure. -/
theorem c9_extractJson_layered :
    (∀ r : String,
      extractJson r =
        ((jsonLoadsL r.data).orElse fun _ =>
          ((fencedJsonBlock r.data).orElse fun _ =>
            ((genericFencedBlock r.data).orElse fun _ => braceSpan r.data)))) ∧
    extractJson "\x7b\"key\": \"value\"\x7d" = some (.jobj [("key", .jstr "value")]) ∧
    extractJson "Here\x27s the response:\n```json\n\x7b\"key\": \"value\"\x7d\n```\n" =
      some (.jobj [("key", .jstr "value")]) ∧
    extractJson "Here\x27s the response:\n```\n\x7b\"key\": \"value\"\x7d\n```\n" =
      some (.jobj [("key", .jstr "value")]) ∧
    extractJson "The result is: \x7b\"key\": \"value\"\x7d as shown above." =
      some (.jobj [("key", .jstr "value")]) ∧
    extractJson "This is not JSON at all" = none := by
  refine ⟨?_, rfl, rfl, rfl, rfl, rfl⟩
  intro r
  cases h1 : jsonLoadsL r.data with
  | some v => simp [extractJson, h1, Option.orElse]
  | none =>
    cases h2 : fencedJsonBlock r.data with
    | some v => simp [extractJson, h1, h2, Option.orElse]
    | none =>
      cases h3 : genericFencedBlock r.data with
      | some v => simp [extractJson, h1, h2, h3, Option.orElse]
      | none => simp [extractJson, h1, h2, h3, Option.orElse]

/-! ## Claim C8: validation retry with correction prompt -/

/-- C8: on a parse/validation failure of the first response,
`call_llm_with_schema` (at its default retry count of 1) issues exactly one
retry whose prompt is the correction template formatted with the validation
error message, the schema description and the first 1000 characters of the
failed response; if the retry validates, the client returns that value, and
if the retry also fails it raises `ValidationRetryExhaustedError` (carrying
the last error) rather than returning a value or a different error. -/
theorem c8_retry_correction {T : Type} (validate : String → Except String T)
    (llm : String → String) (schemaDescription prompt : String) (e1 : String)
    (h : validate (llm prompt) = .error e1) :
    (callLLMWithSchema validate llm schemaDescription prompt defaultMaxRetries).llmPrompts =
      [prompt, correctionPrompt e1 schemaDescription (pyTake (llm prompt) 1000)] ∧
    (∀ v,
      validate (llm (correctionPrompt e1 schemaDescription (pyTake (llm prompt) 1000))) =
        .ok v →
      (callLLMWithSchema validate llm schemaDescription prompt defaultMaxRetries).result =
        .ok v) ∧
    (∀ e2,
      validate (llm (correctionPrompt e1 schemaDescription (pyTake (llm prompt) 1000))) =
        .error e2 →
      (callLLMWithSchema validate llm schemaDescription prompt defaultMaxRetries).result =
        .error (.retryExhausted e2)) := by
  have e0 : callLLMWithSchema validate llm schemaDescription prompt defaultMaxRetries =
      callLoop validate llm schemaDescription (llm prompt) (0 + 1) [prompt] := rfl
  rw [e0, callLoop_succ_error validate llm schemaDescription (llm prompt) 0 [prompt] e1 h]
  refine ⟨?_, ?_, ?_⟩
  · cases h2 : validate
        (llm (correctionPrompt e1 schemaDescription (pyTake (llm prompt) 1000))) with
    | ok v =>
      rw [callLoop_ok _ _ _ _ _ _ v h2]
      rfl
    | error e2 =>
      rw [callLoop_zero_error _ _ _ _ _ e2 h2]
      rfl
  · intro v hv
    rw [callLoop_ok _ _ _ _ _ _ v hv]
  · intro e2 he
    rw [callLoop_zero_error _ _ _ _ _ e2 he]

set_option maxRecDepth 2000 in
/-- C8 witness: a concrete validator rejecting the first response and
accepting the corrected one; the client sends exactly the original prompt
plus one correction prompt and returns the validated value. -/
theorem c8_retry_correction_witness :
    (callLLMWithSchema (T := ℕ)
        (fun s => if s = "good" then .ok 7 else .error "bad")
        (fun p => if p = "P" then "junk" else "good")
        "DESC" "P" defaultMaxRetries).result = .ok 7 ∧
    (callLLMWithSchema (T := ℕ)
        (fun s => if s = "good" then .ok 7 else .error "bad")
        (fun p => if p = "P" then "junk" else "good")
        "DESC" "P" defaultMaxRetries).llmPrompts =
      ["P", correctionPrompt "bad" "DESC" "junk"] := by
  have h := c8_retry_correction (T := ℕ)
    (fun s => if s = "good" then .ok 7 else .error "bad")
    (fun p => if p = "P" then "junk" else "good")
    "DESC" "P" "bad" rfl
  exact ⟨h.2.1 7 rfl, h.1⟩

end Sponge

namespace Sponge

/-! ## Helper lemmas about one persistence iteration -/

/-- Shape of a successful `persistStep`: how the counter moves, which rows
are produced, and how `node_id_map` is extended. -/
theorem persistStep_spec (t : ℕ) (s : List ScoredNugget) (i : ℕ)
    (c : CandidateNugget) (d : DedupDecision) (nid : ℕ) (st : StepOut)
    (h : persistStep t s i c d nid = .ok st) :
    nid ≤ st.nextNid ∧ st.nextNid ≤ nid + 1 ∧
    ((st.nodesE = [] ∧ st.nextNid = nid) ∨
      (∃ node, st.nodesE = [node] ∧ node.id = nid ∧ st.nextNid = nid + 1)) ∧
    (st.nodesE.length = if d.outcome = .merge then 0 else 1) ∧
    (st.nuggetE.map (fun r => r.score) =
      if d.outcome = .merge then []
      else [computePersistedScore (findScore s i)]) ∧
    (st.idMapE.map Prod.snd = st.nodesE.map (fun n => n.id) ∨
      (∃ e, d.existingNodeId = some e ∧ st.idMapE.map Prod.snd = [e] ∧ st.nodesE = [])) ∧
    (d.outcome = .merge → ∀ e, d.existingNodeId = some e →
      st.idMapE.map Prod.snd = [e]) ∧
    (∀ ed ∈ st.edgesE, ed.sourceId = nid ∧
      ∃ e, d.existingNodeId = some e ∧ ed.targetId = e) := by
  rcases hd : d.outcome <;> simp only [persistStep, hd] at h
  · rcases hc : ConfidenceLevel.ofString c.confidence.str with _ | lvl <;>
      simp only [hc] at h
    · cases h
    · cases h
      refine ⟨by dsimp only; omega, by dsimp only; omega,
        Or.inr ⟨_, rfl, rfl, rfl⟩, by simp, by simp [mkNuggetRec],
        Or.inl (by simp), by simp, by simp⟩
  · rcases he : d.existingNodeId with _ | eid <;> simp only [he] at h
    · cases h
      refine ⟨by dsimp only; omega, by dsimp only; omega, Or.inl ⟨rfl, rfl⟩,
        by simp, by simp, Or.inl (by simp), ?_, by simp⟩
      intro _ e hee
      cases hee
    · rcases hc : ConfidenceLevel.ofString c.confidence.str with _ | lvl <;>
        simp only [hc] at h
      · cases h
      · cases h
        refine ⟨by dsimp only; omega, by dsimp only; omega, Or.inl ⟨rfl, rfl⟩,
          by simp, by simp, Or.inr ⟨eid, rfl, by simp, rfl⟩, ?_, by simp⟩
        intro _ e hee
        cases hee
        simp
  · rcases hc : ConfidenceLevel.ofString c.confidence.str with _ | lvl <;>
      simp only [hc] at h
    · cases h
    · cases h
      refine ⟨by dsimp only; omega, by dsimp only; omega,
        Or.inr ⟨_, rfl, rfl, rfl⟩, by simp, by simp [mkNuggetRec],
        Or.inl (by simp), by simp, ?_⟩
      rcases hee : d.existingNodeId with _ | eid
      · simp [hee]
      · intro ed hed
        simp only [hee, List.mem_singleton] at hed
        subst hed
        exact ⟨rfl, eid, rfl, rfl⟩
  · rcases hc : ConfidenceLevel.ofString c.confidence.str with _ | lvl <;>
      simp only [hc] at h
    · cases h
    · cases h
      refine ⟨by dsimp only; omega, by dsimp only; omega,
        Or.inr ⟨_, rfl, rfl, rfl⟩, by simp, by simp [mkNuggetRec],
        Or.inl (by simp), by simp, ?_⟩
      rcases hee : d.existingNodeId with _ | eid
      · simp [hee]
      · intro ed hed
        simp only [hee, List.mem_singleton] at hed
        subst hed
        exact ⟨rfl, eid, rfl, rfl⟩

/-- `persistStep` succeeds whenever the candidate's confidence maps into
`ConfidenceLevel`, i.e. is not `"medium"`. -/
theorem persistStep_total (t : ℕ) (s : List ScoredNugget) (i : ℕ)
    (c : CandidateNugget) (d : DedupDecision) (nid : ℕ)
    (hconf : c.confidence ≠ .medium) :
    ∃ st, persistStep t s i c d nid = .ok st := by
  obtain ⟨lvl, hc⟩ : ∃ lvl, ConfidenceLevel.ofString c.confidence.str = some lvl := by
    rcases hcc : c.confidence with _ | _ | _
    · exact ⟨.high, rfl⟩
    · exact absurd hcc hconf
    · exact ⟨.low, rfl⟩
  rcases hd : d.outcome <;> rcases he : d.existingNodeId with _ | eid <;>
    simp only [persistStep, hd, he, hc] <;> exact ⟨_, rfl⟩

end Sponge

namespace Sponge

/-! ## Helper lemmas about the persistence loop -/

/-- The persisted nugget scores are, in order, the anti-generic-adjusted
scores of the non-merge candidates. -/
theorem persistLoop_scores (t : ℕ) (s : List ScoredNugget) :
    ∀ (items : List (ℕ × CandidateNugget × DedupDecision)) (nid : ℕ) (acc : PersistAcc),
      persistLoop t s items nid = .ok acc →
      acc.nuggetRecs.map (fun r => r.score) =
        items.filterMap (fun p =>
          if p.2.2.outcome = DedupOutcome.merge then none
          else some (computePersistedScore (findScore s p.1))) := by
  intro items
  induction items with
  | nil =>
    intro nid acc h
    simp only [persistLoop] at h
    cases h
    simp
  | cons p rest ih =>
    intro nid acc h
    obtain ⟨i, c, d⟩ := p
    simp only [persistLoop] at h
    cases hst : persistStep t s i c d nid with
    | error e => rw [hst] at h; cases h
    | ok st =>
      rw [hst] at h
      dsimp only at h
      cases hrec : persistLoop t s rest st.nextNid with
      | error e => rw [hrec] at h; cases h
      | ok acc2 =>
        rw [hrec] at h
        cases h
        obtain ⟨-, -, -, -, hscore, -, -, -⟩ := persistStep_spec t s i c d nid st hst
        have hrec2 := ih st.nextNid acc2 hrec
        by_cases hm : d.outcome = DedupOutcome.merge
        · simp only [hm] at hscore
          simp [List.filterMap_cons, hm, List.map_append, hscore, hrec2]
        · simp only [if_neg hm] at hscore
          simp [List.filterMap_cons, hm, List.map_append, hscore, hrec2]

/-- The loop creates exactly one node per non-merge decision. -/
theorem persistLoop_nodeCount (t : ℕ) (s : List ScoredNugget) :
    ∀ (items : List (ℕ × CandidateNugget × DedupDecision)) (nid : ℕ) (acc : PersistAcc),
      persistLoop t s items nid = .ok acc →
      acc.nodes.length =
        (items.filter (fun p => decide (p.2.2.outcome ≠ DedupOutcome.merge))).length := by
  intro items
  induction items with
  | nil =>
    intro nid acc h
    simp only [persistLoop] at h
    cases h
    simp
  | cons p rest ih =>
    intro nid acc h
    obtain ⟨i, c, d⟩ := p
    simp only [persistLoop] at h
    cases hst : persistStep t s i c d nid with
    | error e => rw [hst] at h; cases h
    | ok st =>
      rw [hst] at h
      dsimp only at h
      cases hrec : persistLoop t s rest st.nextNid with
      | error e => rw [hrec] at h; cases h
      | ok acc2 =>
        rw [hrec] at h
        cases h
        obtain ⟨-, -, -, hcount, -, -, -, -⟩ := persistStep_spec t s i c d nid st hst
        have hrec2 := ih st.nextNid acc2 hrec
        by_cases hm : d.outcome = DedupOutcome.merge
        · simp only [hm] at hcount
          simp [List.filter_cons, hm, hcount, hrec2]
        · simp only [if_neg hm] at hcount
          simp [List.filter_cons, hm, hcount, hrec2]
          omega

/-- The loop succeeds whenever no candidate has confidence `"medium"`. -/
theorem persistLoop_total (t : ℕ) (s : List ScoredNugget) :
    ∀ (items : List (ℕ × CandidateNugget × DedupDecision)) (nid : ℕ),
      (∀ p ∈ items, p.2.1.confidence ≠ CandConfidence.medium) →
      ∃ acc, persistLoop t s items nid = .ok acc := by
  intro items
  induction items with
  | nil =>
    intro nid _
    exact ⟨_, rfl⟩
  | cons p rest ih =>
    intro nid hconf
    obtain ⟨i, c, d⟩ := p
    obtain ⟨st, hst⟩ := persistStep_total t s i c d nid (hconf (i, c, d) (by simp))
    obtain ⟨acc2, hrec⟩ := ih st.nextNid (fun q hq => hconf q (by simp [hq]))
    refine ⟨⟨acc2.nextId, st.idMapE ++ acc2.idMap, st.nodesE ++ acc2.nodes,
      st.nuggetE ++ acc2.nuggetRecs, st.provE ++ acc2.provRecs,
      st.edgesE ++ acc2.linkEdges⟩, ?_⟩
    simp only [persistLoop]
    rw [hst]
    dsimp only
    rw [hrec]

end Sponge

namespace Sponge

/-- Freshness invariants of the persistence loop: created node ids are fresh
and pairwise distinct, each appears exactly once among the `node_id_map`
values, every map value is either a created node's id or an existing id
below the bound `B`, link edges go from fresh nodes to existing ids, and a
merge decision's existing id always lands among the map values. -/
theorem persistLoop_fresh (t : ℕ) (s : List ScoredNugget) :
    ∀ (items : List (ℕ × CandidateNugget × DedupDecision)) (nid B : ℕ) (acc : PersistAcc),
      B ≤ nid →
      (∀ p ∈ items, ∀ e, p.2.2.existingNodeId = some e → e < B) →
      persistLoop t s items nid = .ok acc →
      nid ≤ acc.nextId ∧
      (∀ n ∈ acc.nodes, nid ≤ n.id ∧ n.id < acc.nextId) ∧
      (acc.nodes.map (fun n => n.id)).Nodup ∧
      (∀ n ∈ acc.nodes, (acc.idMap.map Prod.snd).count n.id = 1) ∧
      (∀ v ∈ acc.idMap.map Prod.snd, (∃ n ∈ acc.nodes, n.id = v) ∨ v < B) ∧
      (∀ ed ∈ acc.linkEdges, nid ≤ ed.sourceId ∧ ed.targetId < B) ∧
      (∀ p ∈ items, p.2.2.outcome = DedupOutcome.merge →
        ∀ e, p.2.2.existingNodeId = some e → e ∈ acc.idMap.map Prod.snd) := by
  intro items
  induction items with
  | nil =>
    intro nid B acc hB hex h
    simp only [persistLoop] at h
    cases h
    simp
  | cons p rest ih =>
    intro nid B acc hB hex h
    obtain ⟨i, c, d⟩ := p
    simp only [persistLoop] at h
    cases hst : persistStep t s i c d nid with
    | error e => rw [hst] at h; cases h
    | ok st =>
      rw [hst] at h
      dsimp only at h
      cases hrec : persistLoop t s rest st.nextNid with
      | error e => rw [hrec] at h; cases h
      | ok acc2 =>
        rw [hrec] at h
        cases h
        dsimp only
        obtain ⟨hle, hle1, hshape, -, -, hvals, hmergeval, hedges⟩ :=
          persistStep_spec t s i c d nid st hst
        have hexHead : ∀ e, d.existingNodeId = some e → e < B :=
          fun e he => hex (i, c, d) (by simp) e he
        have hexRest : ∀ q ∈ rest, ∀ e, q.2.2.existingNodeId = some e → e < B :=
          fun q hq e he => hex q (by simp [hq]) e he
        obtain ⟨ih1, ih2, ih3, ih4, ih5, ih6, ih7⟩ :=
          ih st.nextNid B acc2 (le_trans hB hle) hexRest hrec
        have hstvals : ∀ v ∈ st.idMapE.map Prod.snd,
            (∃ n ∈ st.nodesE, n.id = v) ∨ v < B := by
          rcases hvals with hv | ⟨e, hee, hv, -⟩
          · intro v hvmem
            rw [hv] at hvmem
            obtain ⟨n, hn, hnv⟩ := List.mem_map.mp hvmem
            exact Or.inl ⟨n, hn, hnv⟩
          · intro v hvmem
            rw [hv, List.mem_singleton] at hvmem
            subst hvmem
            exact Or.inr (hexHead v hee)
        have hmergeGoal : ∀ q ∈ (i, c, d) :: rest,
            q.2.2.outcome = DedupOutcome.merge →
            ∀ e, q.2.2.existingNodeId = some e →
            e ∈ (st.idMapE ++ acc2.idMap).map Prod.snd := by
          intro q hq hqm e he
          rw [List.map_append, List.mem_append]
          rcases List.mem_cons.mp hq with hq | hq
          · subst hq
            exact Or.inl (by rw [hmergeval hqm e he]; simp)
          · exact Or.inr (ih7 q hq hqm e he)
        rcases hshape with ⟨hno, hnx⟩ | ⟨node, hno, hnid, hnx⟩
        · refine ⟨by omega, ?_, ?_, ?_, ?_, ?_, hmergeGoal⟩
          · intro n hn
            rw [hno, List.nil_append] at hn
            have := ih2 n hn
            omega
          · rw [hno, List.nil_append]
            exact ih3
          · intro n hn
            rw [hno, List.nil_append] at hn
            rw [List.map_append, List.count_append]
            have h0 : (st.idMapE.map Prod.snd).count n.id = 0 := by
              rw [List.count_eq_zero]
              intro hmem
              rcases hstvals n.id hmem with ⟨n2, hn2, -⟩ | hlt
              · rw [hno] at hn2
                cases hn2
              · have := (ih2 n hn).1
                omega
            rw [h0, ih4 n hn]
          · intro v hv
            rw [List.map_append, List.mem_append] at hv
            rw [hno, List.nil_append]
            rcases hv with hv | hv
            · rcases hstvals v hv with ⟨n2, hn2, -⟩ | hlt
              · rw [hno] at hn2
                cases hn2
              · exact Or.inr hlt
            · exact ih5 v hv
          · intro ed hed
            rcases List.mem_append.mp hed with hed | hed
            · obtain ⟨hsrc, e, hee, htgt⟩ := hedges ed hed
              have := hexHead e hee
              omega
            · have := ih6 ed hed
              omega
        · have hstv : st.idMapE.map Prod.snd = [nid] := by
            rcases hvals with hv | ⟨e, -, -, hne⟩
            · rw [hv, hno, List.map_singleton, hnid]
            · rw [hno] at hne
              cases hne
          have hacc2big : ∀ n ∈ acc2.nodes, nid + 1 ≤ n.id ∧ n.id < acc2.nextId := by
            intro n hn
            have := ih2 n hn
            omega
          have hacc2vals : ∀ v ∈ acc2.idMap.map Prod.snd, v ≠ nid := by
            intro v hv
            rcases ih5 v hv with ⟨n2, hn2, hv2⟩ | hlt
            · have := (hacc2big n2 hn2).1
              omega
            · omega
          refine ⟨by omega, ?_, ?_, ?_, ?_, ?_, hmergeGoal⟩
          · intro n hn
            rw [hno, List.singleton_append, List.mem_cons] at hn
            rcases hn with rfl | hn
            · constructor
              · omega
              · rw [hnid]
                omega
            · have := hacc2big n hn
              omega
          · rw [hno, List.singleton_append, List.map_cons, List.nodup_cons]
            refine ⟨?_, ih3⟩
            intro hmem
            obtain ⟨n2, hn2, hni⟩ := List.mem_map.mp hmem
            have := (hacc2big n2 hn2).1
            rw [hnid] at hni
            omega
          · intro n hn
            rw [List.map_append, List.count_append, hstv]
            rw [hno, List.singleton_append, List.mem_cons] at hn
            rcases hn with rfl | hn
            · rw [hnid]
              have h0 : (acc2.idMap.map Prod.snd).count nid = 0 := by
                rw [List.count_eq_zero]
                intro hmem
                exact hacc2vals nid hmem rfl
              rw [h0, List.count_singleton]
              simp
            · have h0 : List.count n.id [nid] = 0 := by
                rw [List.count_eq_zero, List.mem_singleton]
                have := (hacc2big n hn).1
                omega
              rw [h0, ih4 n hn]
          · intro v hv
            rw [List.map_append, List.mem_append, hstv] at hv
            rw [hno, List.singleton_append]
            rcases hv with hv | hv
            · rw [List.mem_singleton] at hv
              subst hv
              exact Or.inl ⟨node, by simp, hnid⟩
            · rcases ih5 v hv with ⟨n2, hn2, hv2⟩ | hlt
              · exact Or.inl ⟨n2, by simp [hn2], hv2⟩
              · exact Or.inr hlt
          · intro ed hed
            rcases List.mem_append.mp hed with hed | hed
            · obtain ⟨hsrc, e, hee, htgt⟩ := hedges ed hed
              have := hexHead e hee
              omega
            · have := ih6 ed hed
              omega

end Sponge

namespace Sponge

/-! ## Counting `related_to` edges between a pair of nodes -/

/-- `relatedPairCount` distributes over append. -/
theorem relatedPairCount_append (es1 es2 : List PEdge) (x y : ℕ) :
    relatedPairCount (es1 ++ es2) x y =
      relatedPairCount es1 x y + relatedPairCount es2 x y := by
  simp [relatedPairCount, List.filter_append]

/-- Unfolding of the all-pairs loop on a cons cell. -/
theorem coExtractionEdges_cons (v : ℕ) (vs : List ℕ) :
    coExtractionEdges (v :: vs) =
      ((vs.map (fun w => (v, w))).filter (fun p => decide (p.1 ≠ p.2))).map
          (fun p => ⟨p.1, p.2, .related_to⟩) ++
        coExtractionEdges vs := by
  simp [coExtractionEdges, allPairs, List.filter_append]

/-- Pair-edge count contributed by one head element of the all-pairs loop. -/
theorem headEdges_pairCount (v x y : ℕ) (hxy : x ≠ y) (vs : List ℕ) :
    relatedPairCount
      (((vs.map (fun w => (v, w))).filter (fun p => decide (p.1 ≠ p.2))).map
        (fun p => ⟨p.1, p.2, .related_to⟩)) x y =
      if v = x then vs.count y else if v = y then vs.count x else 0 := by
  induction vs with
  | nil => simp [relatedPairCount]
  | cons w ws ihw =>
    simp only [List.map_cons]
    by_cases hvw : v = w
    · rw [List.filter_cons_of_neg (by simp [hvw])]
      rw [ihw]
      by_cases hvx : v = x
      · rw [if_pos hvx, if_pos hvx, List.count_cons]
        have h1 : ¬ (y = w) := by omega
        have h2 : ¬ (w = y) := by omega
        simp [h1, h2]
      · by_cases hvy : v = y
        · rw [if_neg hvx, if_pos hvy, if_neg hvx, if_pos hvy, List.count_cons]
          have h1 : ¬ (x = w) := by omega
          have h2 : ¬ (w = x) := by omega
          simp [h1, h2]
        · rw [if_neg hvx, if_neg hvy, if_neg hvx, if_neg hvy]
    · rw [List.filter_cons_of_pos (by simp [hvw]), List.map_cons]
      have hsplit : ∀ (e : PEdge) (es : List PEdge), e :: es = [e] ++ es :=
        fun e es => rfl
      rw [hsplit, relatedPairCount_append, ihw]
      have hcount : relatedPairCount
          [(⟨(v, w).1, (v, w).2, .related_to⟩ : PEdge)] x y =
          if (v = x ∧ w = y) ∨ (v = y ∧ w = x) then 1 else 0 := by
        by_cases hp : (v = x ∧ w = y) ∨ (v = y ∧ w = x)
        · rw [if_pos hp]
          simp [relatedPairCount, hp]
        · rw [if_neg hp]
          simp [relatedPairCount]
          push_neg at hp
          exact hp
      rw [hcount]
      by_cases hvx : v = x
      · subst hvx
        rw [if_pos rfl, if_pos rfl, List.count_cons]
        by_cases hwy : w = y
        · rw [if_pos (Or.inl ⟨rfl, hwy⟩)]
          simp [hwy]
          omega
        · rw [if_neg (by omega)]
          have h1 : ¬ (y = w) := by omega
          have h2 : ¬ (w = y) := by omega
          simp [h1, h2]
      · by_cases hvy : v = y
        · subst hvy
          rw [if_neg hvx, if_pos rfl, if_neg hvx, if_pos rfl, List.count_cons]
          by_cases hwx : w = x
          · rw [if_pos (Or.inr ⟨rfl, hwx⟩)]
            simp [hwx]
            omega
          · rw [if_neg (by omega)]
            have h1 : ¬ (x = w) := by omega
            have h2 : ¬ (w = x) := by omega
            simp [h1, h2]
        · rw [if_neg hvx, if_neg hvy, if_neg hvx, if_neg hvy,
            if_neg (by omega)]

/-- The all-pairs loop creates exactly `count x · count y` `related_to`
edges between distinct ids `x` and `y`: in particular exactly one when each
id appears exactly once among the `node_id_map` values. -/
theorem coExtractionEdges_pairCount (x y : ℕ) (hxy : x ≠ y) :
    ∀ vals : List ℕ,
      relatedPairCount (coExtractionEdges vals) x y = vals.count x * vals.count y := by
  intro vals
  induction vals with
  | nil => simp [coExtractionEdges, allPairs, relatedPairCount]
  | cons v vs ihv =>
    rw [coExtractionEdges_cons, relatedPairCount_append,
      headEdges_pairCount v x y hxy vs, ihv]
    by_cases hvx : v = x
    · subst hvx
      rw [if_pos rfl, List.count_cons, List.count_cons]
      have h1 : ¬ (y = v) := by omega
      have h2 : ¬ (v = y) := by omega
      simp [h1, h2]
      ring
    · by_cases hvy : v = y
      · subst hvy
        rw [if_neg hvx, if_pos rfl, List.count_cons, List.count_cons]
        have h1 : ¬ (x = v) := by omega
        have h2 : ¬ (v = x) := by omega
        simp [h1, h2]
        ring
      · rw [if_neg hvx, if_neg hvy, List.count_cons, List.count_cons]
        have h1 : ¬ (x = v) := by omega
        have h2 : ¬ (y = v) := by omega
        simp [h1, h2, hvx, hvy]

/-- Every co-extraction edge is a `related_to` edge between two distinct
ids. -/
theorem coExtractionEdges_mem (vals : List ℕ) (ed : PEdge)
    (h : ed ∈ coExtractionEdges vals) :
    ed.edgeType = .related_to ∧ ed.sourceId ≠ ed.targetId := by
  obtain ⟨p, hp, hpe⟩ := List.mem_map.mp h
  obtain ⟨-, hpd⟩ := List.mem_filter.mp hp
  subst hpe
  exact ⟨rfl, of_decide_eq_true hpd⟩

/-- A positive pair count yields an incident `related_to` edge. -/
theorem exists_edge_of_pairCount_pos (es : List PEdge) (x y : ℕ)
    (h : 0 < relatedPairCount es x y) :
    ∃ ed ∈ es, ed.edgeType = .related_to ∧
      ((ed.sourceId = x ∧ ed.targetId = y) ∨ (ed.sourceId = y ∧ ed.targetId = x)) := by
  unfold relatedPairCount at h
  rw [List.length_pos] at h
  obtain ⟨ed, hed⟩ := List.exists_mem_of_ne_nil _ h
  obtain ⟨hmem, hpred⟩ := List.mem_filter.mp hed
  exact ⟨ed, hmem, of_decide_eq_true hpred⟩

end Sponge

namespace Sponge

/-- A decision reached through `enumZip` comes from the decision list. -/
theorem enumZip_mem_dec (cands : List CandidateNugget) (ds : List DedupDecision)
    (i : ℕ) (c : CandidateNugget) (d : DedupDecision)
    (h : (i, c, d) ∈ enumZip cands ds) : d ∈ ds := by
  unfold enumZip at h
  obtain ⟨hlt, hx⟩ := List.mem_enum h
  have h2 : (c, d) ∈ cands.zip ds := by
    rw [hx]
    exact List.getElem_mem hlt
  exact (List.of_mem_zip h2).2

end Sponge

namespace Sponge

/-- C1 counterexample: the claim says a candidate whose dedup outcome was
merge never causes a co-extraction `related_to` edge on the existing node it
merged into; but the merge branch records the existing node's id in
`node_id_map`, so the all-pairs pass links it to every other id.  With one
create and one merge into existing node 5, persistence succeeds and creates
a `related_to` edge from the new node (id 100) to node 5, which is not a
node created in this run. -/
theorem c1_counterexample :
    ∃ g, persistGraph
        [⟨.idea, "first idea title", "A first summary that is long enough.", [], .high⟩,
         ⟨.story, "second story title", "A second summary that is long enough.", [], .high⟩]
        []
        [⟨0, .create, none, none, 0⟩,
         ⟨1, .merge, some 5, some "Similar to: existing", mkRat 9 10⟩]
        7 100 = .ok g ∧
      (⟨100, 5, .related_to⟩ : PEdge) ∈ g.edges ∧
      (∀ n ∈ g.nodes, n.id ≠ 5) := by
  refine ⟨_, rfl, by decide, by decide⟩

/-- C1 (amended): after persistence, every pair of distinct nodes created in
the run is connected by exactly one `related_to` edge (no duplicates, no
self-edges — `related_to` edges never loop); however, a merge outcome places
the merged-into existing node's id among the co-extraction ids, so that
existing node also receives a `related_to` edge to every other id recorded
in the run. -/
theorem c1_related_to_edges
    (cands : List CandidateNugget) (scores : List ScoredNugget)
    (ds : List DedupDecision) (turnId nid0 : ℕ) (g : GraphOut)
    (hex : ∀ d ∈ ds, ∀ e, d.existingNodeId = some e → e < nid0)
    (h : persistGraph cands scores ds turnId nid0 = .ok g) :
    (∀ a ∈ g.nodes, ∀ b ∈ g.nodes, a.id ≠ b.id →
      relatedPairCount g.edges a.id b.id = 1) ∧
    (∀ a ∈ g.nodes, ∀ b ∈ g.nodes, a ≠ b → a.id ≠ b.id) ∧
    (∀ ed ∈ g.edges, ed.edgeType = .related_to → ed.sourceId ≠ ed.targetId) ∧
    (∀ i c d, (i, c, d) ∈ enumZip cands ds → d.outcome = .merge →
      ∀ e, d.existingNodeId = some e →
        e ∈ g.idMapVals ∧
        ∀ v ∈ g.idMapVals, v ≠ e →
          ∃ ed ∈ g.edges, ed.edgeType = .related_to ∧
            ((ed.sourceId = e ∧ ed.targetId = v) ∨
              (ed.sourceId = v ∧ ed.targetId = e))) := by
  unfold persistGraph at h
  cases hloop : persistLoop turnId scores (enumZip cands ds) nid0 with
  | error e => rw [hloop] at h; cases h
  | ok acc =>
    rw [hloop] at h
    cases h
    dsimp only
    have hexItems : ∀ p ∈ enumZip cands ds, ∀ e,
        p.2.2.existingNodeId = some e → e < nid0 := by
      intro p hp e he
      obtain ⟨i, c, d⟩ := p
      exact hex d (enumZip_mem_dec cands ds i c d hp) e he
    obtain ⟨f1, f2, f3, f4, f5, f6, f7⟩ :=
      persistLoop_fresh turnId scores (enumZip cands ds) nid0 nid0 acc
        (le_refl nid0) hexItems hloop
    have hlinkZero : ∀ x y : ℕ, nid0 ≤ x → nid0 ≤ y →
        relatedPairCount acc.linkEdges x y = 0 := by
      intro x y hx hy
      unfold relatedPairCount
      rw [List.length_eq_zero]
      rw [List.filter_eq_nil]
      intro ed hed
      obtain ⟨-, htgt⟩ := f6 ed hed
      simp only [decide_eq_true_eq]
      intro hcontra
      rcases hcontra.2 with ⟨-, h2⟩ | ⟨-, h2⟩ <;> omega
    refine ⟨?_, ?_, ?_, ?_⟩
    · intro a ha b hb hab
      rw [relatedPairCount_append, hlinkZero a.id b.id (f2 a ha).1 (f2 b hb).1,
        coExtractionEdges_pairCount a.id b.id hab, f4 a ha, f4 b hb]
    · intro a ha b hb hne hids
      exact hne (List.inj_on_of_nodup_map f3 ha hb hids)
    · intro ed hed hrel
      rcases List.mem_append.mp hed with hed | hed
      · obtain ⟨hsrc, htgt⟩ := f6 ed hed
        omega
      · exact (coExtractionEdges_mem _ ed hed).2
    · intro i c d hmem hm e he
      have hev : e ∈ acc.idMap.map Prod.snd := f7 (i, c, d) hmem hm e he
      refine ⟨hev, ?_⟩
      intro v hv hve
      have hce : 0 < relatedPairCount (coExtractionEdges (acc.idMap.map Prod.snd)) e v := by
        rw [coExtractionEdges_pairCount e v (fun hcontra => hve (by omega))]
        have h1 : 0 < (acc.idMap.map Prod.snd).count e := List.count_pos_iff_mem.mpr hev
        have h2 : 0 < (acc.idMap.map Prod.snd).count v := List.count_pos_iff_mem.mpr hv
        positivity
      obtain ⟨ed, hedmem, hrel, hdir⟩ := exists_edge_of_pairCount_pos _ e v hce
      exact ⟨ed, List.mem_append.mpr (Or.inr hedmem), hrel, hdir⟩

/-- C1 witness: two create decisions yield two fresh nodes (ids 100, 101)
joined by exactly one `related_to` edge. -/
theorem c1_related_to_edges_witness :
    ∃ g, persistGraph
        [⟨.idea, "first idea title", "A first summary that is long enough.", [], .high⟩,
         ⟨.story, "second story title", "A second summary that is long enough.", [], .high⟩]
        []
        [⟨0, .create, none, none, 0⟩, ⟨1, .create, none, none, 0⟩]
        7 100 = .ok g ∧
      relatedPairCount g.edges 100 101 = 1 := by
  refine ⟨_, rfl, ?_⟩
  have h := c1_related_to_edges
    [⟨.idea, "first idea title", "A first summary that is long enough.", [], .high⟩,
     ⟨.story, "second story title", "A second summary that is long enough.", [], .high⟩]
    []
    [⟨0, .create, none, none, 0⟩, ⟨1, .create, none, none, 0⟩]
    7 100 _ (by decide) rfl
  exact h.1 ⟨100, .idea, "first idea title", "A first summary that is long enough."⟩
    (by decide)
    ⟨101, .story, "second story title", "A second summary that is long enough."⟩
    (by decide) (by decide)

end Sponge

namespace Sponge

/-- C6: a scored candidate persisted as a new node keeps its raw
`total_score` unless its novelty is below 20, in which case the persisted
score is the raw total halved by integer floor division (the `max 0` in the
source is vacuous since the raw total is nonnegative); and the loop persists
one nugget row per non-merge candidate — demotion never drops a candidate,
and the demoted/undemoted score is exactly what lands in the row. -/
theorem c6_anti_generic_demotion :
    (∀ s : ScoredNugget,
      computePersistedScore (some s) =
        if s.dimensionScores.novelty < antiGenericNoveltyThreshold then
          Int.fdiv (totalScore s.dimensionScores) 2
        else (totalScore s.dimensionScores : ℤ)) ∧
    (∀ (t : ℕ) (scores : List ScoredNugget)
        (items : List (ℕ × CandidateNugget × DedupDecision)) (nid : ℕ)
        (acc : PersistAcc),
      persistLoop t scores items nid = .ok acc →
      acc.nuggetRecs.map (fun r => r.score) =
        items.filterMap (fun p =>
          if p.2.2.outcome = DedupOutcome.merge then none
          else some (computePersistedScore (findScore scores p.1)))) := by
  constructor
  · intro s
    unfold computePersistedScore
    dsimp only
    by_cases hn : s.dimensionScores.novelty < antiGenericNoveltyThreshold
    · rw [if_pos hn, if_pos hn]
      exact max_eq_right (Int.fdiv_nonneg (Int.natCast_nonneg _) (by norm_num))
    · rw [if_neg hn, if_neg hn]
  · intro t scores items nid acc h
    exact persistLoop_scores t scores items nid acc h

/-- C6 witness: novelty 19 halves the persisted score (raw 36 → 18) while
novelty 20 leaves it unchanged (37), and a concrete create-decision loop
persists exactly the demoted score. -/
theorem c6_anti_generic_demotion_witness :
    computePersistedScore (some ⟨0, ⟨40, 19, 40, 40, 40, 40⟩, []⟩) = 18 ∧
    computePersistedScore (some ⟨0, ⟨40, 20, 40, 40, 40, 40⟩, []⟩) = 37 ∧
    ∃ acc, persistLoop 7 [⟨0, ⟨40, 19, 40, 40, 40, 40⟩, []⟩]
        [(0, ⟨.idea, "demo title words", "A demo summary that is long enough.", [], .high⟩,
          ⟨0, .create, none, none, 0⟩)] 100 = .ok acc ∧
      acc.nuggetRecs.map (fun r => r.score) = [18] := by
  refine ⟨?_, ?_, ⟨_, rfl, ?_⟩⟩
  · rw [c6_anti_generic_demotion.1 ⟨0, ⟨40, 19, 40, 40, 40, 40⟩, []⟩]
    decide
  · rw [c6_anti_generic_demotion.1 ⟨0, ⟨40, 20, 40, 40, 40, 40⟩, []⟩]
    decide
  · rw [c6_anti_generic_demotion.2 7 [⟨0, ⟨40, 19, 40, 40, 40, 40⟩, []⟩]
      [(0, ⟨.idea, "demo title words", "A demo summary that is long enough.", [], .high⟩,
        ⟨0, .create, none, none, 0⟩)] 100 _ rfl]
    decide

end Sponge

namespace Sponge

/-- The best similarity variable of the `_deduplicate` inner loop computes
the fold-max of Jaccard similarities over the existing nodes (skipped
empty-word-set entries contribute similarity 0, which never changes a
nonnegative running maximum). -/
theorem bestMatchLoop_fst (w : Finset String) :
    ∀ (existing : List ExistingNodeContext) (b : ℚ) (bm : Option ExistingNodeContext),
      0 ≤ b →
      (bestMatchLoop w existing b bm).1 =
        existing.foldl (fun acc node => max acc (jaccard w (wordSet node.title))) b := by
  intro existing
  induction existing with
  | nil =>
    intro b bm hb
    simp [bestMatchLoop]
  | cons node rest ihe =>
    intro b bm hb
    simp only [bestMatchLoop, List.foldl_cons]
    by_cases hempty : w = ∅ ∨ wordSet node.title = ∅
    · rw [if_pos hempty]
      have hj : jaccard w (wordSet node.title) = 0 := by
        rcases hempty with he | he <;> simp [jaccard, he]
      rw [hj, max_eq_left hb]
      exact ihe b bm hb
    · rw [if_neg hempty]
      push_neg at hempty
      have hpos : 0 < (w ∪ wordSet node.title).card := by
        obtain ⟨a, ha⟩ := Finset.nonempty_iff_ne_empty.mpr hempty.1
        exact Finset.card_pos.mpr ⟨a, Finset.mem_union_left _ ha⟩
      rw [if_pos hpos]
      by_cases hlt : b < mkRat (w ∩ wordSet node.title).card (w ∪ wordSet node.title).card
      · rw [if_pos hlt]
        rw [ihe _ (some node) (le_of_lt (lt_of_le_of_lt hb hlt))]
        have hmax : max b (jaccard w (wordSet node.title)) =
            mkRat (w ∩ wordSet node.title).card (w ∪ wordSet node.title).card :=
          max_eq_right (le_of_lt hlt)
        rw [hmax]
      · rw [if_neg hlt]
        rw [ihe b bm hb]
        have hmax : max b (jaccard w (wordSet node.title)) = b :=
          max_eq_left (not_lt.mp hlt)
        rw [hmax]

/-- C5: for a nonempty existing-node set the dedup decision is determined by
the best Jaccard similarity between the lower-cased whitespace-tokenized
title word sets, with thresholds evaluated high to low (`≥ 0.85` merge,
`≥ 0.5` link_expands, `≥ 0.3` link_related, otherwise create), and the
decision records that best similarity; with no existing nodes every
candidate is a create with similarity 0. -/
theorem c5_dedup_thresholds (nuggets : List CandidateNugget)
    (scores : List ScoredNugget) (existing : List ExistingNodeContext) :
    (existing = [] →
      deduplicate nuggets scores existing =
        (List.range nuggets.length).map (fun i => ⟨i, .create, none, none, 0⟩)) ∧
    (existing ≠ [] → ∀ i n, nuggets.get? i = some n →
      ∃ d, (deduplicate nuggets scores existing).get? i = some d ∧
        d.similarityScore = bestSimilarity n.title existing ∧
        d.outcome = dedupOutcomeOf (bestSimilarity n.title existing)) := by
  constructor
  · intro he
    subst he
    simp [deduplicate]
  · intro he i n hn
    unfold deduplicate
    rw [if_neg (by simpa using he)]
    rw [List.get?_map, List.get?_enum, hn]
    refine ⟨_, rfl, ?_, ?_⟩ <;> dsimp only <;>
      rw [bestMatchLoop_fst (wordSet n.title) existing 0 none (le_refl 0)] <;>
      rfl

/-- C5 witness: boundary similarities land in the claimed buckets — exactly
17/20 merges, exactly 1/2 links as expansion, exactly 3/10 links as related,
1/4 creates; and an empty existing set yields create with similarity 0. -/
theorem c5_dedup_thresholds_witness :
    (∃ d, (deduplicate
        [⟨.idea, "a b c d e f g h i j k l m n o p q r s t", "A long enough summary.", [], .high⟩]
        [] [⟨5, "a b c d e f g h i j k l m n o p q", "t", false⟩]).get? 0 = some d ∧
      d.similarityScore = mkRat 17 20 ∧ d.outcome = DedupOutcome.merge) ∧
    (∃ d, (deduplicate [⟨.idea, "a b", "A long enough summary.", [], .high⟩]
        [] [⟨5, "a", "t", false⟩]).get? 0 = some d ∧
      d.similarityScore = mkRat 1 2 ∧ d.outcome = DedupOutcome.link_expands) ∧
    (∃ d, (deduplicate [⟨.idea, "a b c d e f", "A long enough summary.", [], .high⟩]
        [] [⟨5, "a b c g h i j", "t", false⟩]).get? 0 = some d ∧
      d.similarityScore = mkRat 3 10 ∧ d.outcome = DedupOutcome.link_related) ∧
    (∃ d, (deduplicate [⟨.idea, "a b", "A long enough summary.", [], .high⟩]
        [] [⟨5, "a c d", "t", false⟩]).get? 0 = some d ∧
      d.similarityScore = mkRat 1 4 ∧ d.outcome = DedupOutcome.create) ∧
    deduplicate [⟨.idea, "a b", "A long enough summary.", [], .high⟩] [] [] =
      [⟨0, .create, none, none, 0⟩] := by
  refine ⟨?_, ?_, ?_, ?_, ?_⟩
  · obtain ⟨d, hd, hsim, hout⟩ := (c5_dedup_thresholds
      [⟨.idea, "a b c d e f g h i j k l m n o p q r s t", "A long enough summary.", [], .high⟩]
      [] [⟨5, "a b c d e f g h i j k l m n o p q", "t", false⟩]).2 (by decide) 0 _ rfl
    exact ⟨d, hd, by rw [hsim]; decide, by rw [hout]; decide⟩
  · obtain ⟨d, hd, hsim, hout⟩ := (c5_dedup_thresholds
      [⟨.idea, "a b", "A long enough summary.", [], .high⟩]
      [] [⟨5, "a", "t", false⟩]).2 (by decide) 0 _ rfl
    exact ⟨d, hd, by rw [hsim]; decide, by rw [hout]; decide⟩
  · obtain ⟨d, hd, hsim, hout⟩ := (c5_dedup_thresholds
      [⟨.idea, "a b c d e f", "A long enough summary.", [], .high⟩]
      [] [⟨5, "a b c g h i j", "t", false⟩]).2 (by decide) 0 _ rfl
    exact ⟨d, hd, by rw [hsim]; decide, by rw [hout]; decide⟩
  · obtain ⟨d, hd, hsim, hout⟩ := (c5_dedup_thresholds
      [⟨.idea, "a b", "A long enough summary.", [], .high⟩]
      [] [⟨5, "a c d", "t", false⟩]).2 (by decide) 0 _ rfl
    exact ⟨d, hd, by rw [hsim]; decide, by rw [hout]; decide⟩
  · exact ((c5_dedup_thresholds [⟨.idea, "a b", "A long enough summary.", [], .high⟩]
      [] []).1 rfl).trans (by decide)

end Sponge

namespace Sponge

/-- C7: the contradiction detector creates a `contradicts` edge from each
newly created node whose title intersects the negation vocabulary to every
existing node whose title word set has Jaccard similarity at least 0.3 with
the new node\x27s negation-stripped word set — one node may generate several
edges, and a node with no negation signal generates none.  Concretely: the
node "not a b" (content words a, b) contradicts both "a b c d e f"
(similarity 1/3) and "a b d e" (similarity 1/2), while "a b" carries no
negation signal and generates nothing. -/
theorem c7_contradiction_edges :
    (∀ (newNodes : List PNode) (existing : List ExistingNodeContext),
      detectContradictions newNodes existing = specContradictionEdges newNodes existing) ∧
    detectContradictions [⟨9, .idea, "not a b", "s"⟩]
      [⟨5, "a b c d e f", "t", false⟩, ⟨6, "a b d e", "u", false⟩] =
      [⟨9, 5, .contradicts⟩, ⟨9, 6, .contradicts⟩] ∧
    detectContradictions [⟨9, .idea, "a b", "s"⟩] [⟨5, "a b c d e f", "t", false⟩] = [] := by
  refine ⟨?_, by decide, by decide⟩
  intro newNodes existing
  unfold detectContradictions specContradictionEdges
  by_cases h1 : newNodes.isEmpty
  · rw [if_pos (Or.inl h1)]
    rw [List.isEmpty_iff.mp h1]
    rfl
  · by_cases h2 : existing.isEmpty
    · rw [if_pos (Or.inr h2)]
      rw [List.isEmpty_iff.mp h2]
      induction newNodes with
      | nil => rfl
      | cons node rest ihn =>
        simp only [List.cons_bind]
        by_cases hneg : wordSet node.title ∩ negationSignals = ∅ <;> simp [hneg]
    · rw [if_neg (fun hcontra => by rcases hcontra with hc | hc <;> [exact h1 hc; exact h2 hc])]
      clear h1 h2
      congr 1
      funext node
      dsimp only
      by_cases hneg : wordSet node.title ∩ negationSignals = ∅
      · rw [if_pos hneg]
        symm
        rw [List.map_eq_nil_iff, List.filter_eq_nil_iff]
        intro ex hex
        simp only [decide_eq_true_eq, not_and]
        intro hcontra
        exact absurd hcontra (by simp [Finset.not_nonempty_iff_eq_empty, hneg])
      · rw [if_neg hneg]
        induction existing with
        | nil => rfl
        | cons ex rest ihe =>
          simp only [List.filterMap_cons, List.filter_cons]
          by_cases h3 : wordSet node.title \ negationSignals = ∅ ∨ wordSet ex.title = ∅
          · rw [if_pos h3]
            have hj : jaccard (wordSet node.title \ negationSignals) (wordSet ex.title) = 0 := by
              rcases h3 with hc | hc <;> simp [jaccard, hc]
            have hpred : (decide ((wordSet node.title ∩ negationSignals).Nonempty ∧
                contradictionSimilarityFloor ≤
                  jaccard (wordSet node.title \ negationSignals) (wordSet ex.title))) = false := by
              simp only [decide_eq_false_iff_not, not_and]
              intro _
              rw [hj]
              decide
            rw [hpred]
            simp only [Bool.false_eq_true, if_false]
            exact ihe
          · rw [if_neg h3]
            push_neg at h3
            have hpos : 0 < ((wordSet node.title \ negationSignals) ∪ wordSet ex.title).card := by
              obtain ⟨a, ha⟩ := Finset.nonempty_iff_ne_empty.mpr h3.1
              exact Finset.card_pos.mpr ⟨a, Finset.mem_union_left _ ha⟩
            rw [if_pos hpos]
            by_cases hfloor : contradictionSimilarityFloor ≤
                mkRat ((wordSet node.title \ negationSignals) ∩ wordSet ex.title).card
                  ((wordSet node.title \ negationSignals) ∪ wordSet ex.title).card
            · rw [if_pos hfloor]
              have hpred : (decide ((wordSet node.title ∩ negationSignals).Nonempty ∧
                  contradictionSimilarityFloor ≤
                    jaccard (wordSet node.title \ negationSignals) (wordSet ex.title))) = true := by
                simp only [decide_eq_true_eq]
                exact ⟨Finset.nonempty_iff_ne_empty.mpr hneg, hfloor⟩
              rw [hpred]
              simp only [if_true]
              rw [List.map_cons]
              rw [ihe]
            · rw [if_neg hfloor]
              have hpred : (decide ((wordSet node.title ∩ negationSignals).Nonempty ∧
                  contradictionSimilarityFloor ≤
                    jaccard (wordSet node.title \ negationSignals) (wordSet ex.title))) = false := by
                simp only [decide_eq_false_iff_not, not_and]
                intro _
                exact hfloor
              rw [hpred]
              simp only [Bool.false_eq_true, if_false]
              exact ihe

end Sponge

namespace Sponge

/-- A candidate reached through `enumZip` comes from the candidate list. -/
theorem enumZip_mem_cand (cands : List CandidateNugget) (ds : List DedupDecision)
    (i : ℕ) (c : CandidateNugget) (d : DedupDecision)
    (h : (i, c, d) ∈ enumZip cands ds) : c ∈ cands := by
  unfold enumZip at h
  obtain ⟨hlt, hx⟩ := List.mem_enum h
  have h2 : (c, d) ∈ cands.zip ds := by
    rw [hx]
    exact List.getElem_mem hlt
  exact (List.of_mem_zip h2).1

/-- The low-confidence filter of `run` only drops candidates. -/
theorem filterLowConfidence_subset (nuggets : List CandidateNugget) :
    ∀ c ∈ filterLowConfidence nuggets, c ∈ nuggets := by
  intro c hc
  simp only [filterLowConfidence] at hc
  by_cases h : (nuggets.filter (fun n => decide (n.confidence ≠ CandConfidence.low))).isEmpty
  · rw [if_pos h] at hc
    exact hc
  · rw [if_neg h] at hc
    exact List.mem_of_mem_filter hc

/-- `_persist_graph` succeeds whenever no candidate carries the
`"medium"` confidence literal. -/
theorem persistGraph_total (cands : List CandidateNugget) (scores : List ScoredNugget)
    (ds : List DedupDecision) (t n : ℕ)
    (hconf : ∀ c ∈ cands, c.confidence ≠ CandConfidence.medium) :
    ∃ g, persistGraph cands scores ds t n = .ok g := by
  obtain ⟨acc, hacc⟩ := persistLoop_total t scores (enumZip cands ds) n
    (fun p hp => hconf p.2.1 (enumZip_mem_cand cands ds p.1 p.2.1 p.2.2 hp))
  refine ⟨⟨acc.nextId, acc.idMap.map (fun p => p.2), acc.nodes, acc.nuggetRecs,
    acc.provRecs, acc.linkEdges ++ coExtractionEdges (acc.idMap.map (fun p => p.2))⟩, ?_⟩
  unfold persistGraph
  rw [hacc]

/-- A successful `_persist_graph` pass creates exactly one node per
non-merge decision. -/
theorem persistGraph_nodeCount (cands : List CandidateNugget) (scores : List ScoredNugget)
    (ds : List DedupDecision) (t n : ℕ) (g : GraphOut)
    (h : persistGraph cands scores ds t n = .ok g) :
    g.nodes.length = ((enumZip cands ds).filter
      (fun p => decide (p.2.2.outcome ≠ DedupOutcome.merge))).length := by
  unfold persistGraph at h
  cases hloop : persistLoop t scores (enumZip cands ds) n with
  | error e => rw [hloop] at h; cases h
  | ok acc =>
    rw [hloop] at h
    cases h
    exact persistLoop_nodeCount t scores (enumZip cands ds) n acc hloop

/-- Under the all-create default decisions every zipped decision is a
create, so the non-merge filter keeps one item per candidate. -/
theorem enumZip_default_filter (cands : List CandidateNugget) :
    ((enumZip cands (defaultCreateDecisions cands)).filter
      (fun p => decide (p.2.2.outcome ≠ DedupOutcome.merge))).length = cands.length := by
  have hall : ∀ p ∈ enumZip cands (defaultCreateDecisions cands),
      decide (p.2.2.outcome ≠ DedupOutcome.merge) = true := by
    intro p hp
    have hd : p.2.2 ∈ defaultCreateDecisions cands :=
      enumZip_mem_dec cands _ p.1 p.2.1 p.2.2 hp
    simp only [defaultCreateDecisions, List.mem_map] at hd
    obtain ⟨i, -, hi⟩ := hd
    rw [← hi]
    rfl
  rw [List.filter_eq_self.mpr hall]
  unfold enumZip
  rw [List.enum_length, List.length_zip]
  simp [defaultCreateDecisions]

/-- C3 (amended): exactly two pipeline conditions are terminal — extraction
yielding no usable candidates (stage failure or an empty list), and no
scored candidate reaching the raw score threshold 30.  Each terminal case
returns a fixed user-facing failure message via `terminalResult`, which by
construction creates no node, edge, nugget or provenance record.  Every
other stage failure (scoring, dedup, question generation) is absorbed by a
documented default and the run still reaches persistence, creating one node
per non-merge decision — in particular, when the dedup stage fails, its
all-create default persists one node per kept candidate.  However, the
claim\x27s blanket "the run still persists nodes" is not literally true: a
run whose candidates all merge into existing nodes creates no node at all
(see the counterexample).  The `hconf` hypothesis excludes the `"medium"`
confidence literal, whose persistence crash is the separate finding of C2. -/
theorem c3_terminal_conditions (inp : RunInputs)
    (hconf : ∀ nuggets, inp.extractRes = StageResult.ok nuggets →
      ∀ c ∈ nuggets, c.confidence ≠ CandConfidence.medium) :
    (inp.extractRes = StageResult.failed →
      runPipeline inp = .ok (terminalResult [] [] failureMsgNoIdeas)) ∧
    (inp.extractRes = StageResult.ok [] →
      runPipeline inp = .ok (terminalResult [] [] failureMsgNoIdeas)) ∧
    (∀ nuggets, inp.extractRes = StageResult.ok nuggets → nuggets ≠ [] →
      validNuggets (scoredOf inp.scoreRes (filterLowConfidence nuggets)) = [] →
      runPipeline inp = .ok (terminalResult (filterLowConfidence nuggets)
        (scoredOf inp.scoreRes (filterLowConfidence nuggets)) failureMsgTooVague)) ∧
    (∀ extracted scored reason,
      (terminalResult extracted scored reason).createdNodes = [] ∧
      (terminalResult extracted scored reason).createdEdges = [] ∧
      (terminalResult extracted scored reason).createdNuggets = [] ∧
      (terminalResult extracted scored reason).provRecords = [] ∧
      (terminalResult extracted scored reason).extractionFailed = true ∧
      (terminalResult extracted scored reason).failureReason = reason) ∧
    (∀ nuggets, inp.extractRes = StageResult.ok nuggets → nuggets ≠ [] →
      validNuggets (scoredOf inp.scoreRes (filterLowConfidence nuggets)) ≠ [] →
      ∃ g, persistGraph (filterLowConfidence nuggets)
          (scoredOf inp.scoreRes (filterLowConfidence nuggets))
          (decisionsOf inp.dedupFails (filterLowConfidence nuggets)
            (scoredOf inp.scoreRes (filterLowConfidence nuggets)) inp.existingNodes)
          inp.turnId inp.nextId0 = .ok g ∧
        runPipeline inp = .ok
          ⟨filterLowConfidence nuggets,
            scoredOf inp.scoreRes (filterLowConfidence nuggets),
            decisionsOf inp.dedupFails (filterLowConfidence nuggets)
              (scoredOf inp.scoreRes (filterLowConfidence nuggets)) inp.existingNodes,
            g.nodes, g.edges, g.nuggetRecs, g.provRecs,
            detectContradictions g.nodes inp.existingNodes,
            (questionsOf inp.questionRes (filterLowConfidence nuggets)).1,
            (questionsOf inp.questionRes (filterLowConfidence nuggets)).2,
            false, ""⟩ ∧
        (inp.dedupFails = true →
          g.nodes.length = (filterLowConfidence nuggets).length)) := by
  refine ⟨?_, ?_, ?_, ?_, ?_⟩
  · intro h
    unfold runPipeline
    rw [h]
  · intro h
    unfold runPipeline
    rw [h]
    rfl
  · intro nuggets hex hne hvalid
    unfold runPipeline
    rw [hex]
    dsimp only
    rw [if_neg (by simp only [List.isEmpty_iff]; exact hne)]
    rw [if_pos (by rw [hvalid]; rfl)]
  · intro extracted scored reason
    exact ⟨rfl, rfl, rfl, rfl, rfl, rfl⟩
  · intro nuggets hex hne hvalid
    obtain ⟨g, hg⟩ := persistGraph_total (filterLowConfidence nuggets)
      (scoredOf inp.scoreRes (filterLowConfidence nuggets))
      (decisionsOf inp.dedupFails (filterLowConfidence nuggets)
        (scoredOf inp.scoreRes (filterLowConfidence nuggets)) inp.existingNodes)
      inp.turnId inp.nextId0
      (fun c hc => hconf nuggets hex c (filterLowConfidence_subset nuggets c hc))
    refine ⟨g, hg, ?_, ?_⟩
    · unfold runPipeline
      rw [hex]
      dsimp only
      rw [if_neg (by simp only [List.isEmpty_iff]; exact hne)]
      rw [if_neg (by simp only [List.isEmpty_iff]; exact hvalid)]
      rw [hg]
    · intro hdf
      rw [persistGraph_nodeCount _ _ _ _ _ g hg]
      rw [hdf]
      exact enumZip_default_filter (filterLowConfidence nuggets)

end Sponge

namespace Sponge

/-- C3 counterexample: a scoring failure is absorbed (the run succeeds and
is not marked as failed), yet no node is created, because the single
candidate\x27s title exactly matches an existing node and the dedup engine
decides merge.  This refutes the claim\x27s "every other stage failure ...
and the run still persists nodes". -/
theorem c3_counterexample :
    ∃ r, runPipeline ⟨[⟨5, "alpha beta gamma delta", "t", false⟩],
        .ok [⟨.idea, "alpha beta gamma delta", "summary text", [], .high⟩],
        .failed, false, .failed, 7, 100⟩ = .ok r ∧
      r.extractionFailed = false ∧ r.createdNodes = [] := by
  refine ⟨_, rfl, rfl, rfl⟩

/-- C3 witness: with one high-confidence candidate, a scoring failure and a
dedup failure, the run reaches persistence and the all-create default
persists exactly one node. -/
theorem c3_terminal_conditions_witness :
    ∃ g, persistGraph
        (filterLowConfidence [⟨.idea, "alpha beta", "a summary", [], .high⟩])
        (scoredOf .failed (filterLowConfidence [⟨.idea, "alpha beta", "a summary", [], .high⟩]))
        (decisionsOf true (filterLowConfidence [⟨.idea, "alpha beta", "a summary", [], .high⟩])
          (scoredOf .failed (filterLowConfidence [⟨.idea, "alpha beta", "a summary", [], .high⟩]))
          [])
        7 100 = .ok g ∧
      runPipeline ⟨[], .ok [⟨.idea, "alpha beta", "a summary", [], .high⟩],
          .failed, true, .failed, 7, 100⟩ = .ok
        ⟨filterLowConfidence [⟨.idea, "alpha beta", "a summary", [], .high⟩],
          scoredOf .failed (filterLowConfidence [⟨.idea, "alpha beta", "a summary", [], .high⟩]),
          decisionsOf true (filterLowConfidence [⟨.idea, "alpha beta", "a summary", [], .high⟩])
            (scoredOf .failed (filterLowConfidence [⟨.idea, "alpha beta", "a summary", [], .high⟩]))
            [],
          g.nodes, g.edges, g.nuggetRecs, g.provRecs,
          detectContradictions g.nodes [],
          (questionsOf .failed (filterLowConfidence [⟨.idea, "alpha beta", "a summary", [], .high⟩])).1,
          (questionsOf .failed (filterLowConfidence [⟨.idea, "alpha beta", "a summary", [], .high⟩])).2,
          false, ""⟩ ∧
      (true = true →
        g.nodes.length =
          (filterLowConfidence [⟨.idea, "alpha beta", "a summary", [], .high⟩]).length) := by
  exact (c3_terminal_conditions ⟨[], .ok [⟨.idea, "alpha beta", "a summary", [], .high⟩],
      .failed, true, .failed, 7, 100⟩
      (fun nuggets h => by cases h; decide)).2.2.2.2
    [⟨.idea, "alpha beta", "a summary", [], .high⟩] rfl (by decide) (by decide)

end Sponge

namespace Sponge

/-- C10: the score-threshold filter of `run` compares each candidate\x27s
raw (pre-demotion) `total_score` against 30; a candidate with novelty below
20 is persisted with its raw total halved by floor division (never dropped
and never negative); and in a concrete successful run a candidate with raw
total exactly 30 (novelty 10) passes the threshold yet is persisted with
score 15, which is below 30 — the persisted nugget score is not guaranteed
to be at least 30 for runs that succeed. -/
theorem c10_raw_threshold_demotion :
    (∀ (scored : List ScoredNugget) (s : ScoredNugget),
      s ∈ validNuggets scored ↔
        s ∈ scored ∧ minScoreThreshold ≤ totalScore s.dimensionScores) ∧
    (∀ s : ScoredNugget,
      s.dimensionScores.novelty < antiGenericNoveltyThreshold →
      computePersistedScore (some s) = Int.fdiv (totalScore s.dimensionScores) 2) ∧
    (∃ r, runPipeline ⟨[], .ok [⟨.idea, "alpha beta", "a summary", [], .high⟩],
        .ok [⟨0, ⟨0, 10, 100, 0, 30, 30⟩, []⟩], false, .failed, 7, 100⟩ = .ok r ∧
      r.extractionFailed = false ∧
      r.scoredNuggets = [⟨0, ⟨0, 10, 100, 0, 30, 30⟩, []⟩] ∧
      minScoreThreshold ≤ totalScore ⟨0, 10, 100, 0, 30, 30⟩ ∧
      r.createdNuggets.map (fun n => n.score) = [15] ∧
      (15 : ℤ) < (minScoreThreshold : ℤ)) := by
  refine ⟨?_, ?_, ?_⟩
  · intro scored s
    simp [validNuggets, List.mem_filter]
  · intro s hnov
    simp only [computePersistedScore, if_pos hnov]
    exact max_eq_right (Int.fdiv_nonneg (Int.natCast_nonneg _) (by norm_num))
  · refine ⟨_, rfl, rfl, rfl, by decide, rfl, by decide⟩

/-- C10 witness: the demotion conjunct applied at novelty 10 with raw
total 30. -/
theorem c10_raw_threshold_demotion_witness :
    (⟨0, ⟨0, 10, 100, 0, 30, 30⟩, []⟩ : ScoredNugget).dimensionScores.novelty <
        antiGenericNoveltyThreshold ∧
      computePersistedScore (some ⟨0, ⟨0, 10, 100, 0, 30, 30⟩, []⟩) =
        Int.fdiv (totalScore ⟨0, 10, 100, 0, 30, 30⟩) 2 :=
  ⟨by decide, c10_raw_threshold_demotion.2.1 ⟨0, ⟨0, 10, 100, 0, 30, 30⟩, []⟩ (by decide)⟩

end Sponge
